import Mathlib

/-! webhook-operator: approval controller, authorizers and indexers

A shallow embedding of

* `controllers/approval_controller.go` (`Reconcile`, `userAuthorizedForRequest`,
  `isWebhookServingCSR`, `parseCSR`, `equalUnsorted`),
* `authorizer/named_serviceaccount.go`, `authorizer/always_true.go`,
  `authorizer/service_endpoint.go`,
* `indexers/validatingwebhookconfiguration.go`,
* `api/types.go`.

Go strings are Lean strings; byte slices are lists of naturals.  A Go
`(bool, error)` pair is `Bool × Option Error`, the `nil` error being `none`.
Library code the repository calls (the PEM and X.509 decoders, the
controller-runtime client, the CSR approval client, the clock) is a parameter
of the functions that call it.
-/

namespace WebhookOperator

/-! ## Go runtime values -/

/-- A Go `error` value: one built by `fmt.Errorf` from a format and its
arguments, or one handed back by a library call (with whether the API
machinery classifies it as "not found"). -/
inductive Error where
  | errorf (format : String) (args : List String)
  | external (msg : String) (notFound : Bool)
deriving DecidableEq

abbrev Bytes := List Nat

deriving instance DecidableEq for Except

/-- Result of Go code that may return a value, return an error, or panic. -/
inductive GoResult (α : Type) where
  | ok (val : α)
  | err (e : Error)
  | panic (msg : String)
deriving DecidableEq

/-! ## `strings.Split(s, ".")` -/

/-- Split a character list at every occurrence of `sep`; `n` separators give
`n + 1` pieces, so the empty input gives one empty piece. -/
def splitChars (sep : Char) : List Char → List (List Char)
  | [] => [[]]
  | c :: cs =>
    if c = sep then [] :: splitChars sep cs
    else
      match splitChars sep cs with
      | [] => [[c]]
      | piece :: pieces => (c :: piece) :: pieces

/-- `strings.Split(s, ".")`. -/
def strings_Split_dot (s : String) : List String :=
  (splitChars '.' s.data).map String.mk

/-! ## Go string comparison -/

/-- Lexicographic `<` on character lists, characters compared by code point
(the order of their UTF-8 encodings, which is what Go compares). -/
def charsLess : List Char → List Char → Bool
  | _, [] => false
  | [], _ :: _ => true
  | a :: as, b :: bs =>
    if a.toNat < b.toNat then true
    else if b.toNat < a.toNat then false
    else charsLess as bs

/-- Go `a < b` on strings. -/
def stringLess (a b : String) : Bool := charsLess a.data b.data

/-! ## `k8s.io/apimachinery/pkg/util/sets`: the `String` set -/

/-- A `sets.String`: the members, each once, in insertion order. -/
abbrev StringSet := List String

namespace StringSet

/-- `sets.String.Has`. -/
def Has (s : StringSet) (item : String) : Bool := s.contains item

/-- `sets.String.Insert` of one item. -/
def Insert1 (s : StringSet) (item : String) : StringSet :=
  if s.Has item then s else s ++ [item]

/-- `sets.String.Insert(items...)`. -/
def Insert (s : StringSet) (items : List String) : StringSet :=
  items.foldl Insert1 s

/-- `sets.NewString(items...)`. -/
def NewString (items : List String) : StringSet := Insert [] items

/-- `sets.String.Len`. -/
def Len (s : StringSet) : Nat := s.length

/-- `sets.String.IsSuperset`: every member of `s2` is a member of `s1`. -/
def IsSuperset (s1 s2 : StringSet) : Bool := s2.all (fun item => s1.Has item)

/-- `sets.String.Equal`: `len(s1) == len(s2) && s1.IsSuperset(s2)`. -/
def Equal (s1 s2 : StringSet) : Bool := s1.Len == s2.Len && s1.IsSuperset s2

/-- Insert into an ascending list, before the first element that is not smaller. -/
def sortedInsert (x : String) : List String → List String
  | [] => [x]
  | y :: ys => if stringLess y x then y :: sortedInsert x ys else x :: y :: ys

/-- `sort.Sort` on strings ordered by `<`, as an insertion sort. -/
def sortStrings : List String → List String
  | [] => []
  | x :: xs => sortedInsert x (sortStrings xs)

/-- `sets.String.List`: the members as a sorted slice. -/
def toSortedList (s : StringSet) : List String := sortStrings s

end StringSet

/-! ## Kubernetes API types (the fields the code reads or writes) -/

/-- `authentication/v1.UserInfo`. -/
structure UserInfo where
  Username : String
  UID : String
  Groups : List String
  Extra : List (String × List String)
deriving DecidableEq

abbrev KeyUsage := String

def UsageDigitalSignature : KeyUsage := "digital signature"
def UsageKeyEncipherment : KeyUsage := "key encipherment"
def UsageServerAuth : KeyUsage := "server auth"
def UsageClientAuth : KeyUsage := "client auth"

abbrev RequestConditionType := String

def CertificateApproved : RequestConditionType := "Approved"
def CertificateDenied : RequestConditionType := "Denied"

/-- `certificates/v1beta1.CertificateSigningRequestCondition`. -/
structure CertificateSigningRequestCondition where
  Type_ : RequestConditionType
  Reason : String
  Message : String
  LastUpdateTime : Nat
deriving DecidableEq

/-- `certificates/v1beta1.CertificateSigningRequestSpec`. -/
structure CertificateSigningRequestSpec where
  Request : Bytes
  SignerName : Option String
  Usages : List KeyUsage
  Username : String
  UID : String
  Groups : List String
  Extra : List (String × List String)
deriving DecidableEq

/-- `certificates/v1beta1.CertificateSigningRequestStatus`. -/
structure CertificateSigningRequestStatus where
  Conditions : List CertificateSigningRequestCondition
  Certificate : Bytes
deriving DecidableEq

/-- `certificates/v1beta1.CertificateSigningRequest`. -/
structure CertificateSigningRequest where
  Name : String
  Spec : CertificateSigningRequestSpec
  Status : CertificateSigningRequestStatus
deriving DecidableEq

/-- `crypto/x509/pkix.Name`. -/
structure pkix_Name where
  CommonName : String
deriving DecidableEq

/-- `crypto/x509.CertificateRequest`. -/
structure x509_CertificateRequest where
  Subject : pkix_Name
  DNSNames : List String
  EmailAddresses : List String
  IPAddresses : List Bytes
  URIs : List String
deriving DecidableEq

/-- `encoding/pem.Block`. -/
structure pem_Block where
  Type_ : String
  Bytes : Bytes
deriving DecidableEq

/-- `admissionregistration/v1.ServiceReference`. -/
structure ServiceReference where
  Namespace : String
  Name : String
deriving DecidableEq

/-- `admissionregistration/v1.WebhookClientConfig`; `Service` is a pointer. -/
structure WebhookClientConfig where
  Service : Option ServiceReference
deriving DecidableEq

/-- `admissionregistration/v1.ValidatingWebhook`. -/
structure ValidatingWebhook where
  Name : String
  ClientConfig : WebhookClientConfig
deriving DecidableEq

/-- `admissionregistration/v1.ValidatingWebhookConfiguration`. -/
structure ValidatingWebhookConfiguration where
  Name : String
  Annotations : List (String × String)
  Webhooks : List ValidatingWebhook
deriving DecidableEq

/-! ## Library calls -/

/-- The standard-library decoders `parseCSR` calls.  `pem_Decode` gives the
first PEM block of the input, or `none` for the nil block Go returns when the
input holds no PEM data. -/
structure Decoders where
  pem_Decode : Bytes → Option pem_Block
  x509_ParseCertificateRequest : Bytes → Except Error x509_CertificateRequest

/-- The controller-runtime `client.Client`: `Get` of a certificate signing
request by name, and `List` of the validating webhook configurations matching
`client.MatchingFields{field: value}`. -/
structure Client where
  Get : String → Except Error CertificateSigningRequest
  ListMatchingFields : String → String → Except Error (List ValidatingWebhookConfiguration)

/-- `client.IgnoreNotFound`. -/
def client_IgnoreNotFound : Error → Option Error
  | .external _ true => none
  | e => some e

/-! ## `api/types.go` -/

def WebhookServingSignerName : String := "cert-manager.io/webhook-serving"

/-- The `api.UserAuthorizer` interface: `IsAuthorized(userInfo, identifier)`. -/
abbrev UserAuthorizer := UserInfo → String → Bool × Option Error

/-- Modelled from the spec: `api.GetCertApprovalCondition`, which the approval
controller calls and whose file is not among the sources.  The spec gives a
request a decision state in {Pending, Approved, Denied}, recorded in its
condition list: the first result says that an Approved condition is present,
the second that a Denied condition is present, and the request is Pending when
neither is. -/
def GetCertApprovalCondition (status : CertificateSigningRequestStatus) : Bool × Bool :=
  (status.Conditions.any (fun c => c.Type_ == CertificateApproved),
   status.Conditions.any (fun c => c.Type_ == CertificateDenied))

/-! ## `indexers/validatingwebhookconfiguration.go` -/

def ValidatingWebhookServiceNameKey : String := ".synthetic.serviceName"

/-- `validatingWebhookServiceNameIndexerFunc`: one key per webhook entry that
has a service reference. -/
def validatingWebhookServiceNameIndexerFunc
    (vwh : ValidatingWebhookConfiguration) : List String :=
  vwh.Webhooks.foldl
    (fun serviceNames wh =>
      match wh.ClientConfig.Service with
      | none => serviceNames
      | some svc => serviceNames ++ [svc.Namespace ++ "/" ++ svc.Name])
    []

/-! ## `authorizer/` -/

/-- `extractServiceNamespaceName`: `(namespace, name)` or an error. -/
def extractServiceNamespaceName (hostname : String) : Except Error (String × String) :=
  let s := strings_Split_dot hostname
  if s.length != 3 then .error (.errorf "invalid URL format" [])
  else
    match s with
    | [s0, s1, _] =>
      if s0 == "" || s1 == "" then .error (.errorf "invalid URL %q" [hostname])
      else .ok (s1, s0)
    | _ => .error (.errorf "invalid URL format" [])

/-- What one `IsAuthorized` call of the named-principal authorizer did: the
pair it returned and the `(field, value)` queries it sent to the client. -/
structure AuthorizerRun where
  allowed : Bool
  err : Option Error
  queries : List (String × String)
deriving DecidableEq

/-- `(*NamedUserAuthorizer).IsAuthorized`. -/
def NamedUserAuthorizer.IsAuthorized (a : Client) (_userInfo : UserInfo)
    (identifier : String) : AuthorizerRun :=
  match extractServiceNamespaceName identifier with
  | .error _ => ⟨false, none, []⟩
  | .ok (ns, name) =>
    let key := ns ++ "/" ++ name
    match a.ListMatchingFields ValidatingWebhookServiceNameKey key with
    | .error err => ⟨false, some err, [(ValidatingWebhookServiceNameKey, key)]⟩
    | .ok items => ⟨decide (items.length > 0), none, [(ValidatingWebhookServiceNameKey, key)]⟩

/-- The named-principal authorizer behind the `api.UserAuthorizer` interface. -/
def NamedUserAuthorizer (a : Client) : UserAuthorizer :=
  fun userInfo identifier =>
    let run := NamedUserAuthorizer.IsAuthorized a userInfo identifier
    (run.allowed, run.err)

/-- `(*AlwaysTrueAuthorizer).IsAuthorized`. -/
def AlwaysTrueAuthorizer : UserAuthorizer := fun _ _ => (true, none)

/-- `(*ServiceEndpointAuthorizer).IsAuthorized`. -/
def ServiceEndpointAuthorizer : UserAuthorizer := fun _ _ => (true, none)

/-! ## `controllers/approval_controller.go` -/

/-- `equalUnsorted`: both slices are poured into string sets, which are compared. -/
def equalUnsorted (l r : List KeyUsage) : Bool :=
  let lS := l.foldl (fun acc v => StringSet.Insert acc [v]) (StringSet.NewString [])
  let rS := r.foldl (fun acc v => StringSet.Insert acc [v]) (StringSet.NewString [])
  StringSet.Equal lS rS

/-- `isWebhookServingCSR` (the logger argument only receives messages). -/
def isWebhookServingCSR (req : CertificateSigningRequestSpec)
    (csr : x509_CertificateRequest) : Bool :=
  if csr.IPAddresses.length > 0 || csr.EmailAddresses.length > 0 || csr.URIs.length > 0 then
    false
  else if !equalUnsorted req.Usages
      [UsageDigitalSignature, UsageKeyEncipherment, UsageServerAuth] then
    false
  else
    true

/-- `parseCSR`: the block `pem.Decode` returns is dereferenced unchecked. -/
def parseCSR (lib : Decoders) (csr : Bytes) : GoResult x509_CertificateRequest :=
  match lib.pem_Decode csr with
  | none => .panic "invalid memory address or nil pointer dereference"
  | some b =>
    if b.Type_ != "CERTIFICATE REQUEST" then
      .err (.errorf "expected PEM data of type 'CERTIFICATE REQUEST' but found %q" [b.Type_])
    else
      match lib.x509_ParseCertificateRequest b.Bytes with
      | .error e => .err e
      | .ok cr => .ok cr

/-- What one `userAuthorizedForRequest` call did: the pair it returned and the
identifiers it passed to the authorizer, in call order. -/
structure AuthorizationRun where
  allowed : Bool
  err : Option Error
  calls : List String
deriving DecidableEq

/-- The `for _, identifier := range identifiers` loop of `userAuthorizedForRequest`. -/
def authorizeIdentifiers (authorizer : UserAuthorizer) (userInfo : UserInfo) :
    List String → AuthorizationRun
  | [] => ⟨true, none, []⟩
  | identifier :: rest =>
    match authorizer userInfo identifier with
    | (_, some err) => ⟨false, some err, [identifier]⟩
    | (false, none) => ⟨false, none, [identifier]⟩
    | (true, none) =>
      let run := authorizeIdentifiers authorizer userInfo rest
      ⟨run.allowed, run.err, identifier :: run.calls⟩

/-- The identifier slice `userAuthorizedForRequest` ranges over. -/
def requestIdentifiers (csr : x509_CertificateRequest) : List String :=
  let identSet := StringSet.NewString csr.DNSNames
  let identSet :=
    if csr.Subject.CommonName != "" then StringSet.Insert identSet [csr.Subject.CommonName]
    else identSet
  StringSet.toSortedList identSet

/-- The `auth.UserInfo` that `userAuthorizedForRequest` builds from the request. -/
def requestUserInfo (req : CertificateSigningRequestSpec) : UserInfo :=
  { Username := req.Username
    UID := req.UID
    Groups := req.Groups
    Extra := req.Extra.map (fun kv => (kv.1, kv.2)) }

/-- `userAuthorizedForRequest`. -/
def userAuthorizedForRequest (authorizer : UserAuthorizer)
    (req : CertificateSigningRequestSpec) (csr : x509_CertificateRequest) :
    AuthorizationRun :=
  authorizeIdentifiers authorizer (requestUserInfo req) (requestIdentifiers csr)

/-- `ApprovalReconciler` (logger and scheme left out). -/
structure ApprovalReconciler where
  Client : Client
  SignerName : String
  Authorizer : UserAuthorizer
  UpdateApproval : CertificateSigningRequest → Except Error CertificateSigningRequest

/-- What one `Reconcile` call did: the error it returned (or that it
panicked), the identifiers it had the authorizer decide, and the objects it
submitted through `ExpansionClient.UpdateApproval`. -/
structure ReconcileRun where
  err : Option Error
  panicked : Bool
  authorizerCalls : List String
  approvalUpdates : List CertificateSigningRequest
deriving DecidableEq

/-- A `Reconcile` call that returns `nil` having done nothing. -/
def ReconcileRun.noop : ReconcileRun := ⟨none, false, [], []⟩

/-- The condition `Reconcile` appends; `now` is `time.Now()`. -/
def approvedCondition (now : Nat) : CertificateSigningRequestCondition :=
  { Type_ := CertificateApproved
    Reason := "AutoApproved"
    Message := "Automatically approved by webhook-operator"
    LastUpdateTime := now }

/-- `(*ApprovalReconciler).Reconcile`; `req` is the name of the request and
`now` the reading of the clock. -/
def ApprovalReconciler.Reconcile (lib : Decoders) (now : Nat) (r : ApprovalReconciler)
    (req : String) : ReconcileRun :=
  match r.Client.Get req with
  | .error err => ⟨client_IgnoreNotFound err, false, [], []⟩
  | .ok csr =>
    let (allowed, denied) := GetCertApprovalCondition csr.Status
    if allowed || denied then ReconcileRun.noop
    else
      match csr.Spec.SignerName with
      | none => ReconcileRun.noop
      | some signerName =>
        if signerName != WebhookServingSignerName then ReconcileRun.noop
        else
          match parseCSR lib csr.Spec.Request with
          | .panic _ => ⟨none, true, [], []⟩
          | .err _ => ReconcileRun.noop
          | .ok x509Cr =>
            if !isWebhookServingCSR csr.Spec x509Cr then ReconcileRun.noop
            else
              let run := userAuthorizedForRequest r.Authorizer csr.Spec x509Cr
              match run.err with
              | some err => ⟨some err, false, run.calls, []⟩
              | none =>
                if !run.allowed then ⟨none, false, run.calls, []⟩
                else
                  let approvedCSR : CertificateSigningRequest :=
                    { csr with
                      Status :=
                        { csr.Status with
                          Conditions := csr.Status.Conditions ++ [approvedCondition now] } }
                  match r.UpdateApproval approvedCSR with
                  | .error err => ⟨some err, false, run.calls, [approvedCSR]⟩
                  | .ok _ => ⟨none, false, run.calls, [approvedCSR]⟩

/-! ## The service-name index -/

/-- A client whose field index is built by the registered indexer function
over the configurations it currently holds: a `List` with
`MatchingFields{field: value}` returns the configurations for which the
indexer emits `value` under `field`. -/
def indexClient (csrs : List CertificateSigningRequest)
    (configs : List ValidatingWebhookConfiguration) : Client where
  Get := fun name =>
    match csrs.find? (fun c => c.Name == name) with
    | some c => .ok c
    | none => .error (.external "not found" true)
  ListMatchingFields := fun field value =>
    if field == ValidatingWebhookServiceNameKey then
      .ok (configs.filter (fun c => (validatingWebhookServiceNameIndexerFunc c).contains value))
    else
      .error (.external "field label not supported" false)

/-! ## Example values -/

/-- Decoders under which every payload is one `CERTIFICATE REQUEST` block
holding the request `cr`. -/
def exampleDecoders (cr : x509_CertificateRequest) : Decoders where
  pem_Decode := fun payload => some ⟨"CERTIFICATE REQUEST", payload⟩
  x509_ParseCertificateRequest := fun _ => .ok cr

/-- A parsed request with the given common name, DNS names and IP addresses
and no email address or URI. -/
def exampleParsed (cn : String) (dns : List String) (ips : List Bytes) :
    x509_CertificateRequest :=
  ⟨⟨cn⟩, dns, [], ips, []⟩

/-- A request for the handled signer with the three serving usages, made by
the service account `ns1:sa1`, carrying the given conditions. -/
def exampleCSR (conditions : List CertificateSigningRequestCondition) :
    CertificateSigningRequest :=
  { Name := "csr1"
    Spec :=
      { Request := [45, 45]
        SignerName := some "cert-manager.io/webhook-serving"
        Usages := ["server auth", "digital signature", "key encipherment"]
        Username := "system:serviceaccount:ns1:sa1"
        UID := "uid1"
        Groups := ["system:serviceaccounts"]
        Extra := [] }
    Status := { Conditions := conditions, Certificate := [] } }

/-- A configuration with one webhook entry, served by `svc1` in `ns1`. -/
def exampleConfiguration : ValidatingWebhookConfiguration :=
  ⟨"config1", [], [⟨"hook1", ⟨some ⟨"ns1", "svc1"⟩⟩⟩]⟩

/-- A reconciler over a store holding `csr` and the configurations `configs`,
wired to the named-principal authorizer; every approval update succeeds. -/
def exampleReconciler (csr : CertificateSigningRequest)
    (configs : List ValidatingWebhookConfiguration) : ApprovalReconciler where
  Client := indexClient [csr] configs
  SignerName := "cert-manager.io/webhook-serving"
  Authorizer := NamedUserAuthorizer (indexClient [csr] configs)
  UpdateApproval := fun c => .ok c

/-- A client whose every call fails. -/
def failingClient : Client where
  Get := fun _ => .error (.external "connection refused" false)
  ListMatchingFields := fun _ _ => .error (.external "connection refused" false)

/-- An authorizer that denies every identifier. -/
def denyAllAuthorizer : UserAuthorizer := fun _ _ => (false, none)

/-- An authorizer that denies `bad.svc.cluster` and allows every other identifier. -/
def exampleAuthorizer : UserAuthorizer :=
  fun _ identifier => (identifier != "bad.svc.cluster", none)


/-! ## The service-endpoint variant in the words of the specification -/

/-- The service-endpoint variant as the specification describes its current
scope: it "delegates fully to service-name matching", the match the
named-principal authorizer performs over the same client. -/
def ServiceEndpointAuthorizer_spec (a : Client) : UserAuthorizer :=
  NamedUserAuthorizer a

/-! ## The index as the set of current configurations -/

/-- The configurations an index over `configs` returns for `key`: those for
which the indexer function emits `key`. -/
def indexLookup (configs : List ValidatingWebhookConfiguration) (key : String) :
    List ValidatingWebhookConfiguration :=
  configs.filter (fun c => (validatingWebhookServiceNameIndexerFunc c).contains key)

/-- A configuration is created or updated: it replaces the held configuration
of the same name, if any. -/
def indexRegister (configs : List ValidatingWebhookConfiguration)
    (c : ValidatingWebhookConfiguration) : List ValidatingWebhookConfiguration :=
  configs.filter (fun d => d.Name != c.Name) ++ [c]

/-- The configuration called `name` is deleted. -/
def indexRemove (configs : List ValidatingWebhookConfiguration) (name : String) :
    List ValidatingWebhookConfiguration :=
  configs.filter (fun d => d.Name != name)

/-! ## Principals named by a configuration

The doc comment of `NamedUserAuthorizer` names two annotations, each a comma
separated list, to be matched against the `UserInfo`. -/

def AuthorizedUsernamesKey : String := "webhooks.cert-manager.io/authorized-usernames"
def AuthorizedGroupsKey : String := "webhooks.cert-manager.io/authorized-groups"

/-- The comma separated entries of the value `c` carries under `key`, none
when it does not carry `key`. -/
def annotatedNames (c : ValidatingWebhookConfiguration) (key : String) : List String :=
  match c.Annotations.lookup key with
  | none => []
  | some value => (splitChars ',' value.data).map String.mk

/-- The configuration names the user: its authorized-usernames list contains
the username, or its authorized-groups list contains one of the groups. -/
def configurationNamesUser (c : ValidatingWebhookConfiguration) (userInfo : UserInfo) :
    Bool :=
  (annotatedNames c AuthorizedUsernamesKey).contains userInfo.Username ||
    userInfo.Groups.any (fun g => (annotatedNames c AuthorizedGroupsKey).contains g)

/-! ## Further example values -/

/-- Decoders that find no PEM block in any payload. -/
def noPemDecoders : Decoders where
  pem_Decode := fun _ => none
  x509_ParseCertificateRequest := fun _ => .error (.external "asn1: syntax error" false)

/-- A configuration served by `svc1` in `ns1` that names the user `alice` and
the group `webhook-admins`. -/
def exampleAnnotatedConfiguration : ValidatingWebhookConfiguration :=
  ⟨"config2",
    [("webhooks.cert-manager.io/authorized-usernames", "alice,bob"),
     ("webhooks.cert-manager.io/authorized-groups", "webhook-admins")],
    [⟨"hook1", ⟨some ⟨"ns1", "svc1"⟩⟩⟩]⟩

/-- A user no example configuration names. -/
def exampleOutsider : UserInfo := ⟨"mallory", "uid9", ["system:authenticated"], []⟩

/-- An authorizer whose backing store fails on `err.svc.cluster`, which denies
`bad.svc.cluster` and allows every other identifier. -/
def exampleFailingAuthorizer : UserAuthorizer :=
  fun _ identifier =>
    if identifier == "err.svc.cluster" then (false, some (.external "store unavailable" false))
    else (identifier != "bad.svc.cluster", none)

/-! ## String sets: membership and distinctness -/

theorem StringSet.Has_iff (s : StringSet) (item : String) :
    StringSet.Has s item = true ↔ item ∈ s := by
  simp [StringSet.Has]

theorem StringSet.Insert1_of_mem (s : StringSet) (item : String) (h : item ∈ s) :
    StringSet.Insert1 s item = s := by
  simp [StringSet.Insert1, StringSet.Has_iff, h]

theorem StringSet.Insert1_of_not_mem (s : StringSet) (item : String) (h : item ∉ s) :
    StringSet.Insert1 s item = s ++ [item] := by
  simp [StringSet.Insert1, StringSet.Has_iff, h]

theorem StringSet.mem_Insert1 (s : StringSet) (item x : String) :
    x ∈ StringSet.Insert1 s item ↔ x ∈ s ∨ x = item := by
  by_cases h : item ∈ s
  · rw [StringSet.Insert1_of_mem s item h]
    constructor
    · exact Or.inl
    · rintro (hx | rfl)
      · exact hx
      · exact h
  · rw [StringSet.Insert1_of_not_mem s item h]
    simp

theorem StringSet.nodup_Insert1 (s : StringSet) (item : String) (hs : s.Nodup) :
    (StringSet.Insert1 s item).Nodup := by
  by_cases h : item ∈ s
  · rw [StringSet.Insert1_of_mem s item h]; exact hs
  · rw [StringSet.Insert1_of_not_mem s item h]
    exact List.Nodup.append hs (List.nodup_singleton item) (by simpa using h)

theorem StringSet.mem_Insert (items : List String) (s : StringSet) (x : String) :
    x ∈ StringSet.Insert s items ↔ x ∈ s ∨ x ∈ items := by
  induction items generalizing s with
  | nil => simp [StringSet.Insert]
  | cons item rest ih =>
    have step : StringSet.Insert s (item :: rest) = StringSet.Insert (StringSet.Insert1 s item) rest := rfl
    rw [step, ih, StringSet.mem_Insert1]
    simp only [List.mem_cons]
    tauto

theorem StringSet.nodup_Insert (items : List String) (s : StringSet) (hs : s.Nodup) :
    (StringSet.Insert s items).Nodup := by
  induction items generalizing s with
  | nil => simpa [StringSet.Insert] using hs
  | cons item rest ih =>
    exact ih (StringSet.Insert1 s item) (StringSet.nodup_Insert1 s item hs)

theorem StringSet.mem_sortedInsert (x y : String) (l : List String) :
    y ∈ StringSet.sortedInsert x l ↔ y = x ∨ y ∈ l := by
  induction l with
  | nil => simp [StringSet.sortedInsert]
  | cons z zs ih =>
    unfold StringSet.sortedInsert
    by_cases h : stringLess z x = true
    · simp only [h, if_true, List.mem_cons, ih]; tauto
    · simp [h]

theorem StringSet.mem_sortStrings (l : List String) (y : String) :
    y ∈ StringSet.sortStrings l ↔ y ∈ l := by
  induction l with
  | nil => simp [StringSet.sortStrings]
  | cons x xs ih => simp [StringSet.sortStrings, StringSet.mem_sortedInsert, ih]

theorem mem_requestIdentifiers (csr : x509_CertificateRequest) (x : String) :
    x ∈ requestIdentifiers csr ↔
      x ∈ csr.DNSNames ∨ (csr.Subject.CommonName ≠ "" ∧ x = csr.Subject.CommonName) := by
  unfold requestIdentifiers StringSet.toSortedList StringSet.NewString
  by_cases h : csr.Subject.CommonName = ""
  · simp [h, StringSet.mem_sortStrings, StringSet.mem_Insert]
  · simp [h, StringSet.mem_sortStrings, StringSet.mem_Insert]

theorem requestUserInfo_eq (req : CertificateSigningRequestSpec) :
    requestUserInfo req = ⟨req.Username, req.UID, req.Groups, req.Extra⟩ := by
  unfold requestUserInfo
  have h : req.Extra.map (fun kv => (kv.1, kv.2)) = req.Extra := List.map_id _
  rw [h]

theorem authorizeIdentifiers_allowed_iff (authorizer : UserAuthorizer) (userInfo : UserInfo)
    (ids : List String) :
    (authorizeIdentifiers authorizer userInfo ids).allowed = true ↔
      ∀ identifier ∈ ids, authorizer userInfo identifier = (true, none) := by
  induction ids with
  | nil => simp [authorizeIdentifiers]
  | cons identifier rest ih =>
    unfold authorizeIdentifiers
    rcases h : authorizer userInfo identifier with ⟨b, e⟩
    cases e with
    | some err => simp [h]
    | none =>
      cases b with
      | false => simp [h]
      | true => simp [h, ih]


theorem usageSet_eq (l : List KeyUsage) (s : StringSet) :
    l.foldl (fun acc v => StringSet.Insert acc [v]) s = StringSet.Insert s l := by
  induction l generalizing s with
  | nil => rfl
  | cons v rest ih => exact ih (StringSet.Insert s [v])

theorem StringSet.Equal_iff (s1 s2 : StringSet) (h1 : s1.Nodup) (h2 : s2.Nodup) :
    StringSet.Equal s1 s2 = true ↔ ∀ x, x ∈ s1 ↔ x ∈ s2 := by
  unfold StringSet.Equal StringSet.Len StringSet.IsSuperset
  simp only [Bool.and_eq_true, beq_iff_eq, List.all_eq_true, StringSet.Has_iff]
  constructor
  · rintro ⟨hlen, hsub⟩
    have hperm : s2.Perm s1 :=
      (List.subperm_of_subset h2 hsub).perm_of_length_le (le_of_eq hlen)
    intro x
    exact (hperm.mem_iff).symm
  · intro h
    have hperm : s1.Perm s2 := (List.perm_ext_iff_of_nodup h1 h2).2 h
    exact ⟨hperm.length_eq, fun x hx => (h x).2 hx⟩

theorem equalUnsorted_iff (l r : List KeyUsage) :
    equalUnsorted l r = true ↔ ∀ u, u ∈ l ↔ u ∈ r := by
  unfold equalUnsorted
  simp only [usageSet_eq, StringSet.NewString]
  have e : StringSet.Insert [] ([] : List String) = [] := rfl
  rw [e, StringSet.Equal_iff _ _ (StringSet.nodup_Insert l [] List.nodup_nil)
    (StringSet.nodup_Insert r [] List.nodup_nil)]
  simp [StringSet.mem_Insert]

/-- C1: `userAuthorizedForRequest` allows exactly when the authorizer returns
`(true, nil)` for every identifier of the request (each DNS name, and the
common name when it is not empty), the identity being the one the request
carries; so one identifier that is not allowed makes the result
`allowed = false` whatever the authorizer says of the others. -/
theorem userAuthorizedForRequest_allowed_iff_all (authorizer : UserAuthorizer)
    (req : CertificateSigningRequestSpec) (csr : x509_CertificateRequest) :
    ((userAuthorizedForRequest authorizer req csr).allowed = true ↔
      ∀ identifier : String,
        (identifier ∈ csr.DNSNames ∨
          (csr.Subject.CommonName ≠ "" ∧ identifier = csr.Subject.CommonName)) →
        authorizer ⟨req.Username, req.UID, req.Groups, req.Extra⟩ identifier = (true, none)) ∧
    (∀ identifier : String,
        (identifier ∈ csr.DNSNames ∨
          (csr.Subject.CommonName ≠ "" ∧ identifier = csr.Subject.CommonName)) →
        authorizer ⟨req.Username, req.UID, req.Groups, req.Extra⟩ identifier ≠ (true, none) →
        (userAuthorizedForRequest authorizer req csr).allowed = false) := by
  have key : (userAuthorizedForRequest authorizer req csr).allowed = true ↔
      ∀ identifier : String,
        (identifier ∈ csr.DNSNames ∨
          (csr.Subject.CommonName ≠ "" ∧ identifier = csr.Subject.CommonName)) →
        authorizer ⟨req.Username, req.UID, req.Groups, req.Extra⟩ identifier = (true, none) := by
    unfold userAuthorizedForRequest
    rw [authorizeIdentifiers_allowed_iff, requestUserInfo_eq]
    constructor
    · intro h identifier hid
      exact h identifier ((mem_requestIdentifiers csr identifier).2 hid)
    · intro h identifier hid
      exact h identifier ((mem_requestIdentifiers csr identifier).1 hid)
  refine ⟨key, ?_⟩
  intro identifier hid hne
  cases hall : (userAuthorizedForRequest authorizer req csr).allowed with
  | false => rfl
  | true => exact absurd (key.1 hall identifier hid) hne

/-- When `isWebhookServingCSR` accepts. -/
theorem isWebhookServingCSR_accepts_iff (rq : CertificateSigningRequestSpec)
    (csr : x509_CertificateRequest) :
    isWebhookServingCSR rq csr = true ↔
      (csr.IPAddresses = [] ∧ csr.EmailAddresses = [] ∧ csr.URIs = [] ∧
        ∀ u : KeyUsage, u ∈ rq.Usages ↔
          (u = "digital signature" ∨ u = "key encipherment" ∨ u = "server auth")) := by
  unfold isWebhookServingCSR
  have hu := equalUnsorted_iff rq.Usages
    [UsageDigitalSignature, UsageKeyEncipherment, UsageServerAuth]
  simp only [UsageDigitalSignature, UsageKeyEncipherment, UsageServerAuth, List.mem_cons,
    List.mem_singleton, List.not_mem_nil, or_false] at hu
  rcases hip : csr.IPAddresses with _ | ⟨ip, ips⟩ <;>
  rcases hem : csr.EmailAddresses with _ | ⟨em, ems⟩ <;>
  rcases hur : csr.URIs with _ | ⟨ur, urs⟩ <;>
  simp [UsageDigitalSignature, UsageKeyEncipherment, UsageServerAuth, hu]

/-- C2: `isWebhookServingCSR` accepts exactly when the IP-address,
email-address and URI lists are empty and the requested usages, as a set, are
digital signature, key encipherment and server auth; permuting the usages
does not change the answer, the two-usage list without server auth is
rejected, and the list with client auth added is rejected. -/
theorem isWebhookServingCSR_iff (req : CertificateSigningRequestSpec)
    (csr : x509_CertificateRequest) :
    (isWebhookServingCSR req csr = true ↔
      (csr.IPAddresses = [] ∧ csr.EmailAddresses = [] ∧ csr.URIs = [] ∧
        ∀ u : KeyUsage, u ∈ req.Usages ↔
          (u = "digital signature" ∨ u = "key encipherment" ∨ u = "server auth"))) ∧
    (∀ req2 : CertificateSigningRequestSpec, req2.Usages.Perm req.Usages →
      isWebhookServingCSR req2 csr = isWebhookServingCSR req csr) ∧
    (req.Usages = ["digital signature", "key encipherment"] →
      isWebhookServingCSR req csr = false) ∧
    (req.Usages = ["digital signature", "key encipherment", "server auth", "client auth"] →
      isWebhookServingCSR req csr = false) := by
  have key : ∀ rq : CertificateSigningRequestSpec, isWebhookServingCSR rq csr = true ↔
      (csr.IPAddresses = [] ∧ csr.EmailAddresses = [] ∧ csr.URIs = [] ∧
        ∀ u : KeyUsage, u ∈ rq.Usages ↔
          (u = "digital signature" ∨ u = "key encipherment" ∨ u = "server auth")) :=
    fun rq => isWebhookServingCSR_accepts_iff rq csr
  refine ⟨key req, ?_, ?_, ?_⟩
  · intro req2 hperm
    have h2 := key req2
    have h1 := key req
    have hmem : ∀ u : KeyUsage, u ∈ req2.Usages ↔ u ∈ req.Usages := fun u => hperm.mem_iff
    simp only [hmem] at h2
    cases hb : isWebhookServingCSR req csr with
    | true => exact h2.2 (h1.1 hb)
    | false =>
      cases hb2 : isWebhookServingCSR req2 csr with
      | false => rfl
      | true => rw [h1.2 (h2.1 hb2)] at hb; exact absurd hb (by decide)
  · intro hus
    cases hb : isWebhookServingCSR req csr with
    | false => rfl
    | true =>
      have h := ((key req).1 hb).2.2.2 "server auth"
      rw [hus] at h
      exact absurd (h.2 (Or.inr (Or.inr rfl))) (by decide)
  · intro hus
    cases hb : isWebhookServingCSR req csr with
    | false => rfl
    | true =>
      have h := ((key req).1 hb).2.2.2 "client auth"
      rw [hus] at h
      exact absurd (h.1 (by decide)) (by decide)


/-- Witness for C1: with DNS names `ok.svc.cluster` and `bad.svc.cluster`, the
second denied, the request is not allowed. -/
theorem userAuthorizedForRequest_allowed_iff_all_witness :
    (userAuthorizedForRequest exampleAuthorizer (exampleCSR []).Spec
      (exampleParsed "" ["ok.svc.cluster", "bad.svc.cluster"] [])).allowed = false :=
  (userAuthorizedForRequest_allowed_iff_all exampleAuthorizer (exampleCSR []).Spec
    (exampleParsed "" ["ok.svc.cluster", "bad.svc.cluster"] [])).2
    "bad.svc.cluster" (Or.inl (by decide)) (by decide)

/-- Witness for C2: the three usages in another order are accepted, and the
order does not matter. -/
theorem isWebhookServingCSR_iff_witness :
    isWebhookServingCSR (exampleCSR []).Spec (exampleParsed "" ["svc1.ns1.cluster"] []) = true ∧
    isWebhookServingCSR
        { (exampleCSR []).Spec with
          Usages := ["digital signature", "key encipherment", "server auth"] }
        (exampleParsed "" ["svc1.ns1.cluster"] []) =
      isWebhookServingCSR (exampleCSR []).Spec (exampleParsed "" ["svc1.ns1.cluster"] []) :=
  ⟨(isWebhookServingCSR_iff (exampleCSR []).Spec
      (exampleParsed "" ["svc1.ns1.cluster"] [])).1.2
      ⟨rfl, rfl, rfl, by intro u; simp [exampleCSR]; tauto⟩,
   (isWebhookServingCSR_iff (exampleCSR []).Spec
      (exampleParsed "" ["svc1.ns1.cluster"] [])).2.1 _ (by decide)⟩


/-! ## The reconciler -/

theorem GetCertApprovalCondition_pending (status : CertificateSigningRequestStatus)
    (h : ∀ c ∈ status.Conditions, c.Type_ ≠ "Approved" ∧ c.Type_ ≠ "Denied") :
    GetCertApprovalCondition status = (false, false) := by
  unfold GetCertApprovalCondition
  have h1 : status.Conditions.any (fun c => c.Type_ == CertificateApproved) = false := by
    rw [List.any_eq_false]
    intro c hc
    simpa [CertificateApproved] using (h c hc).1
  have h2 : status.Conditions.any (fun c => c.Type_ == CertificateDenied) = false := by
    rw [List.any_eq_false]
    intro c hc
    simpa [CertificateDenied] using (h c hc).2
  rw [h1, h2]

theorem GetCertApprovalCondition_decided (status : CertificateSigningRequestStatus)
    (h : ∃ c ∈ status.Conditions, c.Type_ = "Approved" ∨ c.Type_ = "Denied") :
    ((GetCertApprovalCondition status).1 || (GetCertApprovalCondition status).2) = true := by
  obtain ⟨c, hc, ht⟩ := h
  unfold GetCertApprovalCondition
  simp only [Bool.or_eq_true, List.any_eq_true]
  rcases ht with ht | ht
  · exact Or.inl ⟨c, hc, by simp [CertificateApproved, ht]⟩
  · exact Or.inr ⟨c, hc, by simp [CertificateDenied, ht]⟩

/-- What `Reconcile` does with a fetched Pending request that names the
handled signer and whose payload decodes to `cr`. -/
theorem Reconcile_decoded (lib : Decoders) (now : Nat) (r : ApprovalReconciler)
    (req : String) (csr : CertificateSigningRequest) (cr : x509_CertificateRequest)
    (hget : r.Client.Get req = .ok csr)
    (hpending : GetCertApprovalCondition csr.Status = (false, false))
    (hsigner : csr.Spec.SignerName = some WebhookServingSignerName)
    (hparse : parseCSR lib csr.Spec.Request = .ok cr) :
    ApprovalReconciler.Reconcile lib now r req =
      if !isWebhookServingCSR csr.Spec cr then ReconcileRun.noop
      else
        match (userAuthorizedForRequest r.Authorizer csr.Spec cr).err with
        | some err => ⟨some err, false, (userAuthorizedForRequest r.Authorizer csr.Spec cr).calls, []⟩
        | none =>
          if !(userAuthorizedForRequest r.Authorizer csr.Spec cr).allowed then
            ⟨none, false, (userAuthorizedForRequest r.Authorizer csr.Spec cr).calls, []⟩
          else
            match r.UpdateApproval
              { csr with
                Status :=
                  { csr.Status with
                    Conditions := csr.Status.Conditions ++ [approvedCondition now] } } with
            | .error err =>
              ⟨some err, false, (userAuthorizedForRequest r.Authorizer csr.Spec cr).calls,
                [{ csr with
                   Status :=
                     { csr.Status with
                       Conditions := csr.Status.Conditions ++ [approvedCondition now] } }]⟩
            | .ok _ =>
              ⟨none, false, (userAuthorizedForRequest r.Authorizer csr.Spec cr).calls,
                [{ csr with
                   Status :=
                     { csr.Status with
                       Conditions := csr.Status.Conditions ++ [approvedCondition now] } }]⟩ := by
  unfold ApprovalReconciler.Reconcile
  simp only [hget, hpending, hsigner, hparse]
  simp

/-- A fetched Pending request whose signer is not the handled one, or whose
payload does not decode, gets no approval update and no authorizer call. -/
theorem Reconcile_not_decoded (lib : Decoders) (now : Nat) (r : ApprovalReconciler)
    (req : String) (csr : CertificateSigningRequest)
    (hget : r.Client.Get req = .ok csr)
    (h : csr.Spec.SignerName ≠ some WebhookServingSignerName ∨
      ∀ cr, parseCSR lib csr.Spec.Request ≠ .ok cr) :
    (ApprovalReconciler.Reconcile lib now r req).approvalUpdates = [] ∧
    (ApprovalReconciler.Reconcile lib now r req).authorizerCalls = [] := by
  unfold ApprovalReconciler.Reconcile
  simp only [hget]
  rcases hc : GetCertApprovalCondition csr.Status with ⟨a, d⟩
  by_cases had : (a || d) = true
  · simp [had, ReconcileRun.noop]
  · simp only [had]
    rcases hs : csr.Spec.SignerName with _ | signerName
    · simp [ReconcileRun.noop]
    · by_cases hne : signerName = WebhookServingSignerName
      · subst hne
        rcases h with h | h
        · exact absurd hs h
        · rcases hp : parseCSR lib csr.Spec.Request with cr | e | m
          · exact absurd hp (h cr)
          · simp [ReconcileRun.noop]
          · simp
      · simp [hne, ReconcileRun.noop]


/-- C3: for a fetched request that `GetCertApprovalCondition` reports neither
approved nor denied (Pending), `Reconcile` submits through
`UpdateApproval` the request with one Approved condition of reason
`AutoApproved` appended to its conditions exactly when the request names the
handled signer, its payload decodes, `isWebhookServingCSR` accepts it and
`userAuthorizedForRequest` returns `(true, nil)`; otherwise it submits
nothing.  A request whose decoded IP-address list is not empty is never
approved. -/
theorem Reconcile_approves_iff (lib : Decoders) (now : Nat) (r : ApprovalReconciler)
    (req : String) (csr : CertificateSigningRequest)
    (hget : r.Client.Get req = .ok csr)
    (hpending : GetCertApprovalCondition csr.Status = (false, false)) :
    ((ApprovalReconciler.Reconcile lib now r req).approvalUpdates =
        [{ csr with
           Status :=
             { csr.Status with
               Conditions := csr.Status.Conditions ++
                 [⟨"Approved", "AutoApproved",
                   "Automatically approved by webhook-operator", now⟩] } }] ↔
      (csr.Spec.SignerName = some "cert-manager.io/webhook-serving" ∧
        ∃ cr, parseCSR lib csr.Spec.Request = .ok cr ∧
          isWebhookServingCSR csr.Spec cr = true ∧
          (userAuthorizedForRequest r.Authorizer csr.Spec cr).allowed = true ∧
          (userAuthorizedForRequest r.Authorizer csr.Spec cr).err = none)) ∧
    ((ApprovalReconciler.Reconcile lib now r req).approvalUpdates =
        [{ csr with
           Status :=
             { csr.Status with
               Conditions := csr.Status.Conditions ++
                 [⟨"Approved", "AutoApproved",
                   "Automatically approved by webhook-operator", now⟩] } }] ∨
      (ApprovalReconciler.Reconcile lib now r req).approvalUpdates = []) ∧
    (∀ cr, parseCSR lib csr.Spec.Request = .ok cr → cr.IPAddresses ≠ [] →
      (ApprovalReconciler.Reconcile lib now r req).approvalUpdates = []) := by
  have hp := hpending
  have hcond : approvedCondition now =
      ⟨"Approved", "AutoApproved", "Automatically approved by webhook-operator", now⟩ := rfl
  have hname : WebhookServingSignerName = "cert-manager.io/webhook-serving" := rfl
  by_cases hs : csr.Spec.SignerName = some WebhookServingSignerName
  · rcases hparse : parseCSR lib csr.Spec.Request with cr | e | m
    · have hrun := Reconcile_decoded lib now r req csr cr hget hp hs hparse
      rw [hcond] at hrun
      have hip : cr.IPAddresses ≠ [] → isWebhookServingCSR csr.Spec cr = false := by
        intro hne
        cases hb : isWebhookServingCSR csr.Spec cr with
        | false => rfl
        | true => exact absurd ((isWebhookServingCSR_accepts_iff csr.Spec cr).1 hb).1 hne
      rw [← hname]
      cases hv : isWebhookServingCSR csr.Spec cr with
      | false =>
        rw [hv] at hrun
        simp only [Bool.not_false, if_true] at hrun
        rw [hrun]
        simp [ReconcileRun.noop, hv]
      | true =>
        rw [hv] at hrun
        simp only [Bool.not_true, Bool.false_eq_true, if_false] at hrun
        rcases herr : (userAuthorizedForRequest r.Authorizer csr.Spec cr).err with _ | err
        · rw [herr] at hrun
          cases hal : (userAuthorizedForRequest r.Authorizer csr.Spec cr).allowed with
          | false =>
            rw [hal] at hrun
            simp only [Bool.not_false, if_true] at hrun
            rw [hrun]
            simp [hal]
          | true =>
            rw [hal] at hrun
            simp only [Bool.not_true, Bool.false_eq_true, if_false] at hrun
            have hup : (ApprovalReconciler.Reconcile lib now r req).approvalUpdates =
                [{ csr with
                   Status :=
                     { csr.Status with
                       Conditions := csr.Status.Conditions ++
                         [⟨"Approved", "AutoApproved",
                           "Automatically approved by webhook-operator", now⟩] } }] := by
              rw [hrun]
              cases r.UpdateApproval _ <;> rfl
            refine ⟨⟨fun _ => ⟨hs, cr, rfl, hv, hal, herr⟩, fun _ => hup⟩, Or.inl hup, ?_⟩
            intro cr2 hcr2 hne
            cases hcr2
            rw [hip hne] at hv
            exact absurd hv (by decide)
        · rw [herr] at hrun
          rw [hrun]
          simp [herr]
    · have hno := (Reconcile_not_decoded lib now r req csr hget
        (Or.inr (fun cr h => by rw [hparse] at h; cases h))).1
      rw [hno]
      simp
    · have hno := (Reconcile_not_decoded lib now r req csr hget
        (Or.inr (fun cr h => by rw [hparse] at h; cases h))).1
      rw [hno]
      simp
  · have hno := (Reconcile_not_decoded lib now r req csr hget (Or.inl hs)).1
    rw [hno]
    rw [hname] at hs
    simp [hs]

/-- C4: for a fetched request that `GetCertApprovalCondition` reports approved
or denied, `Reconcile` returns a nil error having called the authorizer on
nothing and submitted no approval update, whatever the signer name, payload,
usages, identity and authorizer are. -/
theorem Reconcile_decided_noop (lib : Decoders) (now : Nat) (r : ApprovalReconciler)
    (req : String) (csr : CertificateSigningRequest)
    (hget : r.Client.Get req = .ok csr)
    (hdecided : (GetCertApprovalCondition csr.Status).1 = true ∨
      (GetCertApprovalCondition csr.Status).2 = true) :
    ApprovalReconciler.Reconcile lib now r req =
      { err := none, panicked := false, authorizerCalls := [], approvalUpdates := [] } := by
  have h : ((GetCertApprovalCondition csr.Status).1 ||
      (GetCertApprovalCondition csr.Status).2) = true := by
    rcases hdecided with h | h <;> simp [h]
  unfold ApprovalReconciler.Reconcile
  simp only [hget]
  rcases hc : GetCertApprovalCondition csr.Status with ⟨a, d⟩
  rw [hc] at h
  simp only at h
  simp [h, ReconcileRun.noop]


/-- Witness for C3: the Pending example request for `svc1.ns1.cluster` is
approved when a configuration targets the service, and the same request with
an IP address is not. -/
theorem Reconcile_approves_iff_witness :
    (ApprovalReconciler.Reconcile (exampleDecoders (exampleParsed "" ["svc1.ns1.cluster"] []))
        7 (exampleReconciler (exampleCSR []) [exampleConfiguration]) "csr1").approvalUpdates =
      [exampleCSR [⟨"Approved", "AutoApproved",
        "Automatically approved by webhook-operator", 7⟩]] ∧
    (ApprovalReconciler.Reconcile
        (exampleDecoders (exampleParsed "" ["svc1.ns1.cluster"] [[10, 0, 0, 1]]))
        7 (exampleReconciler (exampleCSR []) [exampleConfiguration]) "csr1").approvalUpdates =
      [] :=
  ⟨(Reconcile_approves_iff (exampleDecoders (exampleParsed "" ["svc1.ns1.cluster"] []))
      7 (exampleReconciler (exampleCSR []) [exampleConfiguration]) "csr1" (exampleCSR [])
      (by decide) (by decide)).1.2
      ⟨rfl, exampleParsed "" ["svc1.ns1.cluster"] [], rfl, by decide, by decide, by decide⟩,
   (Reconcile_approves_iff
      (exampleDecoders (exampleParsed "" ["svc1.ns1.cluster"] [[10, 0, 0, 1]]))
      7 (exampleReconciler (exampleCSR []) [exampleConfiguration]) "csr1" (exampleCSR [])
      (by decide) (by decide)).2.2
      (exampleParsed "" ["svc1.ns1.cluster"] [[10, 0, 0, 1]]) rfl (by decide)⟩

/-- Witness for C4: the example request, already Denied, is left alone. -/
theorem Reconcile_decided_noop_witness :
    ApprovalReconciler.Reconcile (exampleDecoders (exampleParsed "" ["svc1.ns1.cluster"] []))
        7 (exampleReconciler (exampleCSR [⟨"Denied", "Manual", "denied by an admin", 3⟩])
          [exampleConfiguration]) "csr1" =
      { err := none, panicked := false, authorizerCalls := [], approvalUpdates := [] } :=
  Reconcile_decided_noop (exampleDecoders (exampleParsed "" ["svc1.ns1.cluster"] []))
    7 (exampleReconciler (exampleCSR [⟨"Denied", "Manual", "denied by an admin", 3⟩])
      [exampleConfiguration]) "csr1"
    (exampleCSR [⟨"Denied", "Manual", "denied by an admin", 3⟩])
    (by decide) (Or.inr (by decide))


/-- C5 as stated fails: with no common name and no DNS name the request is
allowed, even by an authorizer that denies every identifier, and validation
accepts that request. -/
theorem userAuthorizedForRequest_empty_not_denied :
    ¬ ((userAuthorizedForRequest denyAllAuthorizer (exampleCSR []).Spec
        (exampleParsed "" [] [])).allowed = false) ∧
    isWebhookServingCSR (exampleCSR []).Spec (exampleParsed "" [] []) = true := by
  decide

/-- C5, amended: with an empty common name and no DNS name,
`userAuthorizedForRequest` calls the authorizer on nothing and returns
`(true, nil)`; `isWebhookServingCSR` does not read the common name or the DNS
names, so it does not guarantee that an identifier is present. -/
theorem userAuthorizedForRequest_no_identifiers (authorizer : UserAuthorizer)
    (req : CertificateSigningRequestSpec) (csr : x509_CertificateRequest)
    (hcn : csr.Subject.CommonName = "") (hdns : csr.DNSNames = []) :
    userAuthorizedForRequest authorizer req csr =
      { allowed := true, err := none, calls := [] } ∧
    (∀ (cn : String) (dns : List String),
      isWebhookServingCSR req { csr with Subject := ⟨cn⟩, DNSNames := dns } =
        isWebhookServingCSR req csr) := by
  constructor
  · have hids : requestIdentifiers csr = [] := by
      simp [requestIdentifiers, hcn, hdns, StringSet.NewString, StringSet.Insert,
        StringSet.toSortedList, StringSet.sortStrings]
    unfold userAuthorizedForRequest
    rw [hids]
    rfl
  · intro cn dns
    rfl

/-- Witness for C5, amended: the deny-all authorizer is never consulted. -/
theorem userAuthorizedForRequest_no_identifiers_witness :
    userAuthorizedForRequest denyAllAuthorizer (exampleCSR []).Spec (exampleParsed "" [] []) =
      { allowed := true, err := none, calls := [] } :=
  (userAuthorizedForRequest_no_identifiers denyAllAuthorizer (exampleCSR []).Spec
    (exampleParsed "" [] []) rfl rfl).1


/-! ## Splitting on a separator -/

theorem splitChars_ne_nil (sep : Char) (l : List Char) : splitChars sep l ≠ [] := by
  cases l with
  | nil => simp [splitChars]
  | cons c cs =>
    unfold splitChars
    by_cases h : c = sep
    · simp [h]
    · simp only [h, if_false]
      cases splitChars sep cs <;> simp

theorem splitChars_cons_sep (sep : Char) (cs : List Char) :
    splitChars sep (sep :: cs) = [] :: splitChars sep cs := by
  simp [splitChars]

theorem splitChars_cons_ne (sep c : Char) (cs : List Char) (h : c ≠ sep) :
    ∃ piece pieces, splitChars sep cs = piece :: pieces ∧
      splitChars sep (c :: cs) = (c :: piece) :: pieces := by
  rcases hs : splitChars sep cs with _ | ⟨piece, pieces⟩
  · exact absurd hs (splitChars_ne_nil sep cs)
  · refine ⟨piece, pieces, rfl, ?_⟩
    simp [splitChars, h, hs]

theorem splitChars_of_not_mem (sep : Char) (a : List Char) (h : sep ∉ a) :
    splitChars sep a = [a] := by
  induction a with
  | nil => rfl
  | cons c cs ih =>
    have hc : c ≠ sep := fun e => h (by simp [e])
    have hcs : sep ∉ cs := fun e => h (List.mem_cons_of_mem _ e)
    obtain ⟨piece, pieces, h1, h2⟩ := splitChars_cons_ne sep c cs hc
    rw [ih hcs] at h1
    cases h1
    exact h2

theorem splitChars_append (sep : Char) (a rest : List Char) (h : sep ∉ a) :
    splitChars sep (a ++ sep :: rest) = a :: splitChars sep rest := by
  induction a with
  | nil => exact splitChars_cons_sep sep rest
  | cons c cs ih =>
    have hc : c ≠ sep := fun e => h (by simp [e])
    have hcs : sep ∉ cs := fun e => h (List.mem_cons_of_mem _ e)
    obtain ⟨piece, pieces, h1, h2⟩ := splitChars_cons_ne sep c (cs ++ sep :: rest) hc
    rw [ih hcs] at h1
    cases h1
    exact h2

/-- The first piece holds no separator, and the input is either that piece
alone or the piece, a separator and an input that splits into the rest. -/
theorem splitChars_cons_inv (sep : Char) (l p : List Char) (ps : List (List Char))
    (h : splitChars sep l = p :: ps) :
    sep ∉ p ∧ ((ps = [] ∧ l = p) ∨
      ∃ rest, l = p ++ sep :: rest ∧ splitChars sep rest = ps) := by
  induction l generalizing p ps with
  | nil =>
    simp only [splitChars] at h
    cases h
    exact ⟨by simp, Or.inl ⟨rfl, rfl⟩⟩
  | cons c cs ih =>
    by_cases hc : c = sep
    · subst hc
      rw [splitChars_cons_sep] at h
      cases h
      exact ⟨by simp, Or.inr ⟨cs, rfl, rfl⟩⟩
    · obtain ⟨piece, pieces, h1, h2⟩ := splitChars_cons_ne sep c cs hc
      rw [h2] at h
      obtain ⟨ep, eps⟩ := List.cons.inj h
      obtain ⟨hn, hrest⟩ := ih piece pieces h1
      rw [← ep, ← eps]
      refine ⟨?_, ?_⟩
      · intro hm
        rcases List.mem_cons.1 hm with e | e
        · exact hc e.symm
        · exact hn e
      · rcases hrest with ⟨e1, e2⟩ | ⟨rest, e1, e2⟩
        · exact Or.inl ⟨e1, by rw [e2]⟩
        · exact Or.inr ⟨rest, by rw [e1]; rfl, e2⟩

theorem splitChars_eq_three_iff (sep : Char) (l a b c : List Char) :
    splitChars sep l = [a, b, c] ↔
      (l = a ++ sep :: (b ++ sep :: c) ∧ sep ∉ a ∧ sep ∉ b ∧ sep ∉ c) := by
  constructor
  · intro h
    obtain ⟨ha, h1⟩ := splitChars_cons_inv sep l a [b, c] h
    rcases h1 with ⟨e, _⟩ | ⟨r1, e1, h2⟩
    · cases e
    · obtain ⟨hb, h3⟩ := splitChars_cons_inv sep r1 b [c] h2
      rcases h3 with ⟨e, _⟩ | ⟨r2, e2, h4⟩
      · cases e
      · obtain ⟨hc, h5⟩ := splitChars_cons_inv sep r2 c [] h4
        rcases h5 with ⟨_, e3⟩ | ⟨r3, _, h6⟩
        · subst e3
          subst e2
          exact ⟨e1, ha, hb, hc⟩
        · exact absurd h6 (splitChars_ne_nil sep r3)
  · rintro ⟨e, ha, hb, hc⟩
    rw [e, splitChars_append sep a _ ha, splitChars_append sep b _ hb,
      splitChars_of_not_mem sep c hc]

theorem strings_Split_dot_eq_three_iff (h a b c : String) :
    strings_Split_dot h = [a, b, c] ↔
      (h = a ++ "." ++ b ++ "." ++ c ∧ '.' ∉ a.data ∧ '.' ∉ b.data ∧ '.' ∉ c.data) := by
  have hmap : (splitChars '.' h.data).map String.mk = [a, b, c] ↔
      splitChars '.' h.data = [a.data, b.data, c.data] := by
    constructor
    · intro hm
      have := congrArg (List.map String.data) hm
      simpa [List.map_map, Function.comp_def] using this
    · intro hm
      rw [hm]
      rfl
  have hstr : h = a ++ "." ++ b ++ "." ++ c ↔ h.data = a.data ++ '.' :: (b.data ++ '.' :: c.data) := by
    rw [String.ext_iff]
    simp [String.data_append]
  unfold strings_Split_dot
  rw [hmap, splitChars_eq_three_iff, hstr]

theorem extractServiceNamespaceName_ok_iff (hostname ns name : String) :
    extractServiceNamespaceName hostname = .ok (ns, name) ↔
      ∃ suffix, strings_Split_dot hostname = [name, ns, suffix] ∧ name ≠ "" ∧ ns ≠ "" := by
  unfold extractServiceNamespaceName
  rcases hs : strings_Split_dot hostname with _ | ⟨s0, _ | ⟨s1, _ | ⟨s2, _ | ⟨s3, t⟩⟩⟩⟩
  · simp
  · simp
  · simp
  · by_cases h0 : s0 = ""
    · simp only [h0]
      constructor
      · intro h; simp at h
      · rintro ⟨suffix, e, hn, _⟩
        simp only [List.cons.injEq] at e
        exact absurd e.1.symm hn
    · by_cases h1 : s1 = ""
      · simp only [h1]
        constructor
        · intro h; simp [h0] at h
        · rintro ⟨suffix, e, _, hn⟩
          simp only [List.cons.injEq] at e
          exact absurd e.2.1.symm hn
      · constructor
        · intro h
          simp [h0, h1] at h
          obtain ⟨e1, e2⟩ := h
          subst e1; subst e2
          exact ⟨s2, rfl, h0, h1⟩
        · rintro ⟨suffix, e, _, _⟩
          simp only [List.cons.injEq] at e
          obtain ⟨e0, e1, _⟩ := e
          subst e0; subst e1
          simp [h0, h1]
  · simp


/-- C7: `extractServiceNamespaceName` succeeds exactly when splitting the
hostname on `.` gives three labels of which the first two are not empty, and
it then returns the second label as namespace and the first as name, whatever
the third label is.  Three labels come from exactly the strings
`a ++ "." ++ b ++ "." ++ c` whose parts hold no `.`. -/
theorem extractServiceNamespaceName_grammar (hostname : String) :
    ((∃ p, extractServiceNamespaceName hostname = .ok p) ↔
      ∃ a b c, strings_Split_dot hostname = [a, b, c] ∧ a ≠ "" ∧ b ≠ "") ∧
    (∀ a b c, strings_Split_dot hostname = [a, b, c] → a ≠ "" → b ≠ "" →
      extractServiceNamespaceName hostname = .ok (b, a)) ∧
    (∀ a b c, strings_Split_dot hostname = [a, b, c] ↔
      (hostname = a ++ "." ++ b ++ "." ++ c ∧
        '.' ∉ a.data ∧ '.' ∉ b.data ∧ '.' ∉ c.data)) := by
  refine ⟨⟨?_, ?_⟩, ?_, ?_⟩
  · rintro ⟨⟨ns, name⟩, h⟩
    obtain ⟨suffix, hs, hn, hns⟩ := (extractServiceNamespaceName_ok_iff hostname ns name).1 h
    exact ⟨name, ns, suffix, hs, hn, hns⟩
  · rintro ⟨a, b, c, hs, ha, hb⟩
    exact ⟨(b, a), (extractServiceNamespaceName_ok_iff hostname b a).2 ⟨c, hs, ha, hb⟩⟩
  · intro a b c hs ha hb
    exact (extractServiceNamespaceName_ok_iff hostname b a).2 ⟨c, hs, ha, hb⟩
  · intro a b c
    exact strings_Split_dot_eq_three_iff hostname a b c

/-- Witness for C7: the third label may be empty. -/
theorem extractServiceNamespaceName_grammar_witness :
    extractServiceNamespaceName "svc.ns." = .ok ("ns", "svc") :=
  (extractServiceNamespaceName_grammar "svc.ns.").2.1 "svc" "ns" "" (by decide)
    (by decide) (by decide)

/-- C8 as stated fails: `svc.ns.cluster.local` has four labels, so
`extractServiceNamespaceName` returns the format error and not `(ns, svc)`. -/
theorem extractServiceNamespaceName_four_labels_rejected :
    extractServiceNamespaceName "svc.ns.cluster.local" =
      .error (.errorf "invalid URL format" []) ∧
    ¬ (extractServiceNamespaceName "svc.ns.cluster.local" = .ok ("ns", "svc")) := by
  decide

/-- C8, amended: for `svc.ns.cluster.local` `extractServiceNamespaceName`
fails and the named-principal authorizer denies without a lookup; for the
three-label `svc.ns.cluster` it returns namespace `ns` and name `svc`, and the
authorizer looks up the key `ns/svc`. -/
theorem extractServiceNamespaceName_examples (a : Client) (userInfo : UserInfo) :
    (∃ e, extractServiceNamespaceName "svc.ns.cluster.local" = .error e) ∧
    NamedUserAuthorizer.IsAuthorized a userInfo "svc.ns.cluster.local" =
      { allowed := false, err := none, queries := [] } ∧
    extractServiceNamespaceName "svc.ns.cluster" = .ok ("ns", "svc") ∧
    (NamedUserAuthorizer.IsAuthorized a userInfo "svc.ns.cluster").queries =
      [(".synthetic.serviceName", "ns/svc")] := by
  have h4 : extractServiceNamespaceName "svc.ns.cluster.local" =
      .error (.errorf "invalid URL format" []) := by decide
  have h3 : extractServiceNamespaceName "svc.ns.cluster" = .ok ("ns", "svc") := by decide
  refine ⟨⟨_, h4⟩, ?_, h3, ?_⟩
  · simp [NamedUserAuthorizer.IsAuthorized, h4]
  · unfold NamedUserAuthorizer.IsAuthorized
    rw [h3]
    have hk : ("ns" : String) ++ "/" ++ "svc" = "ns/svc" := by decide
    simp only [hk]
    cases a.ListMatchingFields ValidatingWebhookServiceNameKey "ns/svc" <;> rfl

/-- C9: for an identifier whose three labels are `service`, `ns` and a suffix,
the first two not empty, `IsAuthorized` sends the client the one query for the
key `ns ++ "/" ++ service` under the service-name field; if the query returns
configurations the answer is `(true, nil)` exactly when there is at least one
(and `(false, nil)` otherwise), and if it fails with `e` the answer is
`(false, e)`. -/
theorem NamedUserAuthorizer_IsAuthorized_decision (a : Client) (userInfo : UserInfo)
    (identifier service ns suffix : String)
    (hsplit : strings_Split_dot identifier = [service, ns, suffix])
    (hservice : service ≠ "") (hns : ns ≠ "") :
    (NamedUserAuthorizer.IsAuthorized a userInfo identifier).queries =
      [(".synthetic.serviceName", ns ++ "/" ++ service)] ∧
    (∀ items, a.ListMatchingFields ".synthetic.serviceName" (ns ++ "/" ++ service) = .ok items →
      (NamedUserAuthorizer.IsAuthorized a userInfo identifier).err = none ∧
      ((NamedUserAuthorizer.IsAuthorized a userInfo identifier).allowed = true ↔
        items ≠ [])) ∧
    (∀ e, a.ListMatchingFields ".synthetic.serviceName" (ns ++ "/" ++ service) = .error e →
      (NamedUserAuthorizer.IsAuthorized a userInfo identifier).allowed = false ∧
      (NamedUserAuthorizer.IsAuthorized a userInfo identifier).err = some e) := by
  have hex := (extractServiceNamespaceName_ok_iff identifier ns service).2
    ⟨suffix, hsplit, hservice, hns⟩
  have hkey : ValidatingWebhookServiceNameKey = ".synthetic.serviceName" := rfl
  unfold NamedUserAuthorizer.IsAuthorized
  rw [hex, hkey]
  simp only
  rcases hq : a.ListMatchingFields ".synthetic.serviceName" (ns ++ "/" ++ service) with e | items
  · simp
  · refine ⟨rfl, ?_, ?_⟩
    · intro items2 h2
      cases h2
      refine ⟨rfl, ?_⟩
      cases items <;> simp
    · intro e h2
      cases h2

/-- Witness for C9: over an index holding the example configuration the
identifier `svc1.ns1.cluster` is looked up under `ns1/svc1`. -/
theorem NamedUserAuthorizer_IsAuthorized_decision_witness :
    (NamedUserAuthorizer.IsAuthorized (indexClient [] [exampleConfiguration])
        ⟨"system:serviceaccount:ns1:sa1", "", [], []⟩ "svc1.ns1.cluster").queries =
      [(".synthetic.serviceName", "ns1" ++ "/" ++ "svc1")] :=
  (NamedUserAuthorizer_IsAuthorized_decision (indexClient [] [exampleConfiguration])
    ⟨"system:serviceaccount:ns1:sa1", "", [], []⟩ "svc1.ns1.cluster" "svc1" "ns1" "cluster"
    (by decide) (by decide) (by decide)).1

/-- C10: for an identifier `extractServiceNamespaceName` rejects,
`IsAuthorized` returns `(false, nil)` and sends the client no query, whatever
the client would answer; `svc.ns` and `..x` are such identifiers. -/
theorem NamedUserAuthorizer_IsAuthorized_malformed (a : Client) (userInfo : UserInfo)
    (identifier : String)
    (hreject : ∃ e, extractServiceNamespaceName identifier = .error e) :
    NamedUserAuthorizer.IsAuthorized a userInfo identifier =
      { allowed := false, err := none, queries := [] } ∧
    (∃ e, extractServiceNamespaceName "svc.ns" = .error e) ∧
    (∃ e, extractServiceNamespaceName "..x" = .error e) := by
  refine ⟨?_, ⟨_, (by decide : extractServiceNamespaceName "svc.ns" =
      .error (.errorf "invalid URL format" []))⟩,
    ⟨_, (by decide : extractServiceNamespaceName "..x" =
      .error (.errorf "invalid URL %q" ["..x"]))⟩⟩
  obtain ⟨e, he⟩ := hreject
  unfold NamedUserAuthorizer.IsAuthorized
  rw [he]

/-- Witness for C10: `svc.ns` and `..x` are denied over a client whose
queries fail. -/
theorem NamedUserAuthorizer_IsAuthorized_malformed_witness :
    NamedUserAuthorizer.IsAuthorized failingClient ⟨"u", "", [], []⟩ "svc.ns" =
      { allowed := false, err := none, queries := [] } ∧
    NamedUserAuthorizer.IsAuthorized failingClient ⟨"u", "", [], []⟩ "..x" =
      { allowed := false, err := none, queries := [] } :=
  ⟨(NamedUserAuthorizer_IsAuthorized_malformed failingClient ⟨"u", "", [], []⟩ "svc.ns"
      ⟨_, (by decide : extractServiceNamespaceName "svc.ns" =
        .error (.errorf "invalid URL format" []))⟩).1,
   (NamedUserAuthorizer_IsAuthorized_malformed failingClient ⟨"u", "", [], []⟩ "..x"
      ⟨_, (by decide : extractServiceNamespaceName "..x" =
        .error (.errorf "invalid URL %q" ["..x"]))⟩).1⟩


/-! ## The indexer function and the index -/

theorem indexerFunc_foldl (whs : List ValidatingWebhook) (acc : List String) :
    whs.foldl
        (fun serviceNames wh =>
          match wh.ClientConfig.Service with
          | none => serviceNames
          | some svc => serviceNames ++ [svc.Namespace ++ "/" ++ svc.Name])
        acc =
      acc ++ whs.filterMap (fun wh =>
        wh.ClientConfig.Service.map (fun svc => svc.Namespace ++ "/" ++ svc.Name)) := by
  induction whs generalizing acc with
  | nil => simp
  | cons wh rest ih =>
    rw [List.foldl_cons, ih]
    cases hs : wh.ClientConfig.Service with
    | none => simp [List.filterMap_cons, hs]
    | some svc => simp [List.filterMap_cons, hs]

theorem validatingWebhookServiceNameIndexerFunc_eq (vwh : ValidatingWebhookConfiguration) :
    validatingWebhookServiceNameIndexerFunc vwh =
      vwh.Webhooks.filterMap (fun wh =>
        wh.ClientConfig.Service.map (fun svc => svc.Namespace ++ "/" ++ svc.Name)) := by
  unfold validatingWebhookServiceNameIndexerFunc
  rw [indexerFunc_foldl]
  simp

theorem mem_validatingWebhookServiceNameIndexerFunc (vwh : ValidatingWebhookConfiguration)
    (key : String) :
    key ∈ validatingWebhookServiceNameIndexerFunc vwh ↔
      ∃ wh ∈ vwh.Webhooks, ∃ svc, wh.ClientConfig.Service = some svc ∧
        key = svc.Namespace ++ "/" ++ svc.Name := by
  rw [validatingWebhookServiceNameIndexerFunc_eq, List.mem_filterMap]
  constructor
  · rintro ⟨wh, hwh, h⟩
    rcases hs : wh.ClientConfig.Service with _ | svc
    · rw [hs] at h; cases h
    · rw [hs] at h
      simp only [Option.map_some', Option.some.injEq] at h
      exact ⟨wh, hwh, svc, hs, h.symm⟩
  · rintro ⟨wh, hwh, svc, hs, hk⟩
    exact ⟨wh, hwh, by rw [hs, hk]; rfl⟩

/-- Over the index, the named-principal authorizer allows a well-formed
identifier exactly when some held configuration has the key among its keys. -/
theorem NamedUserAuthorizer_indexClient (csrs : List CertificateSigningRequest)
    (configs : List ValidatingWebhookConfiguration) (userInfo : UserInfo)
    (identifier ns name : String)
    (hex : extractServiceNamespaceName identifier = .ok (ns, name)) :
    NamedUserAuthorizer (indexClient csrs configs) userInfo identifier =
      (decide (∃ c ∈ configs, ns ++ "/" ++ name ∈ validatingWebhookServiceNameIndexerFunc c),
        none) := by
  unfold NamedUserAuthorizer NamedUserAuthorizer.IsAuthorized
  rw [hex]
  simp only [indexClient, beq_self_eq_true, if_true]
  congr 1
  by_cases h : ∃ c ∈ configs, ns ++ "/" ++ name ∈ validatingWebhookServiceNameIndexerFunc c
  · obtain ⟨c, hc, hk⟩ := h
    have hmem : c ∈ configs.filter
        (fun c => (validatingWebhookServiceNameIndexerFunc c).contains (ns ++ "/" ++ name)) := by
      rw [List.mem_filter]
      exact ⟨hc, by simpa using hk⟩
    have hpos : 0 < (configs.filter
        (fun c => (validatingWebhookServiceNameIndexerFunc c).contains
          (ns ++ "/" ++ name))).length := List.length_pos_of_mem hmem
    simp only [gt_iff_lt, hpos, decide_True]
    exact (decide_eq_true ⟨c, hc, hk⟩).symm
  · have hnil : configs.filter
        (fun c => (validatingWebhookServiceNameIndexerFunc c).contains (ns ++ "/" ++ name)) =
        [] := by
      rw [List.filter_eq_nil_iff]
      intro c hc hk
      exact h ⟨c, hc, by simpa using hk⟩
    rw [hnil]
    simp only [List.length_nil, gt_iff_lt, lt_self_iff_false, decide_False]
    exact (decide_eq_false h).symm


/-- C6 as stated fails: the DNS name `svc1.ns1.cluster.local` has four
labels, so with the index holding a configuration that targets `svc1` in
`ns1` the request is still denied and no approval update is submitted. -/
theorem Reconcile_endToEnd_four_labels_not_approved :
    ApprovalReconciler.Reconcile
        (exampleDecoders (exampleParsed "" ["svc1.ns1.cluster.local"] []))
        7 (exampleReconciler (exampleCSR []) [exampleConfiguration]) "csr1" =
      { err := none, panicked := false, authorizerCalls := ["svc1.ns1.cluster.local"],
        approvalUpdates := [] } := by
  decide

/-- C6, amended: a fetched request, reported neither approved nor denied
(Pending), for the handled signer with the
three serving usages, no common name and no IP, email or URI name, evaluated
with the named-principal authorizer over the index, whatever its username.
With the DNS name `svc1.ns1.cluster.local` it stays Pending, whatever the
index holds.  With the three-label DNS name `svc1.ns1.cluster` it is approved
when a held configuration has a webhook entry served by `svc1` in `ns1`, and
stays Pending when no held configuration has the key `ns1/svc1`. -/
theorem Reconcile_endToEnd (lib : Decoders) (now : Nat) (r : ApprovalReconciler)
    (req : String) (csr : CertificateSigningRequest) (cr : x509_CertificateRequest)
    (csrs : List CertificateSigningRequest) (configs : List ValidatingWebhookConfiguration)
    (hget : r.Client.Get req = .ok csr)
    (hauth : r.Authorizer = NamedUserAuthorizer (indexClient csrs configs))
    (hpending : GetCertApprovalCondition csr.Status = (false, false))
    (hsigner : csr.Spec.SignerName = some "cert-manager.io/webhook-serving")
    (husages : ∀ u : KeyUsage, u ∈ csr.Spec.Usages ↔
      (u = "digital signature" ∨ u = "key encipherment" ∨ u = "server auth"))
    (hparse : parseCSR lib csr.Spec.Request = .ok cr)
    (hcn : cr.Subject.CommonName = "")
    (hip : cr.IPAddresses = []) (hemail : cr.EmailAddresses = []) (huri : cr.URIs = []) :
    (cr.DNSNames = ["svc1.ns1.cluster.local"] →
      ApprovalReconciler.Reconcile lib now r req =
        { err := none, panicked := false, authorizerCalls := ["svc1.ns1.cluster.local"],
          approvalUpdates := [] }) ∧
    (cr.DNSNames = ["svc1.ns1.cluster"] →
      (∃ c ∈ configs, ∃ wh ∈ c.Webhooks, wh.ClientConfig.Service = some ⟨"ns1", "svc1"⟩) →
      (ApprovalReconciler.Reconcile lib now r req).approvalUpdates =
        [{ csr with
           Status :=
             { csr.Status with
               Conditions := csr.Status.Conditions ++
                 [⟨"Approved", "AutoApproved",
                   "Automatically approved by webhook-operator", now⟩] } }]) ∧
    (cr.DNSNames = ["svc1.ns1.cluster"] →
      (∀ c ∈ configs, "ns1/svc1" ∉ validatingWebhookServiceNameIndexerFunc c) →
      ApprovalReconciler.Reconcile lib now r req =
        { err := none, panicked := false, authorizerCalls := ["svc1.ns1.cluster"],
          approvalUpdates := [] }) := by
  have hp := hpending
  have hvalid : isWebhookServingCSR csr.Spec cr = true :=
    (isWebhookServingCSR_accepts_iff csr.Spec cr).2 ⟨hip, hemail, huri, husages⟩
  have hrun := Reconcile_decoded lib now r req csr cr hget hp hsigner hparse
  rw [hvalid, hauth] at hrun
  simp only [Bool.not_true, Bool.false_eq_true, if_false] at hrun
  have hids : ∀ d : String, cr.DNSNames = [d] → requestIdentifiers cr = [d] := by
    intro d hd
    simp [requestIdentifiers, hcn, hd, StringSet.NewString, StringSet.Insert,
      StringSet.Insert1, StringSet.Has, StringSet.toSortedList, StringSet.sortStrings,
      StringSet.sortedInsert]
  have h3 : extractServiceNamespaceName "svc1.ns1.cluster" = .ok ("ns1", "svc1") := by decide
  have hk : ("ns1" : String) ++ "/" ++ "svc1" = "ns1/svc1" := by decide
  refine ⟨?_, ?_, ?_⟩
  · intro hd
    have h4 : NamedUserAuthorizer (indexClient csrs configs) (requestUserInfo csr.Spec)
        "svc1.ns1.cluster.local" = (false, none) := by
      have h4e : extractServiceNamespaceName "svc1.ns1.cluster.local" =
          .error (.errorf "invalid URL format" []) := by decide
      simp [NamedUserAuthorizer, NamedUserAuthorizer.IsAuthorized, h4e]
    have hu : userAuthorizedForRequest (NamedUserAuthorizer (indexClient csrs configs))
        csr.Spec cr = ⟨false, none, ["svc1.ns1.cluster.local"]⟩ := by
      unfold userAuthorizedForRequest
      rw [hids _ hd]
      simp [authorizeIdentifiers, h4]
    rw [hu] at hrun
    simpa using hrun
  · intro hd hcfg
    have hex : ∃ c ∈ configs,
        "ns1" ++ "/" ++ "svc1" ∈ validatingWebhookServiceNameIndexerFunc c := by
      obtain ⟨c, hc, wh, hwh, hs⟩ := hcfg
      exact ⟨c, hc, (mem_validatingWebhookServiceNameIndexerFunc c _).2
        ⟨wh, hwh, ⟨"ns1", "svc1"⟩, hs, rfl⟩⟩
    have h1 := NamedUserAuthorizer_indexClient csrs configs (requestUserInfo csr.Spec)
      "svc1.ns1.cluster" "ns1" "svc1" h3
    rw [decide_eq_true hex] at h1
    have hu : userAuthorizedForRequest (NamedUserAuthorizer (indexClient csrs configs))
        csr.Spec cr = ⟨true, none, ["svc1.ns1.cluster"]⟩ := by
      unfold userAuthorizedForRequest
      rw [hids _ hd]
      simp [authorizeIdentifiers, h1]
    rw [hu] at hrun
    simp only [Bool.not_true, Bool.false_eq_true, if_false] at hrun
    rw [hrun]
    cases r.UpdateApproval _ <;> rfl
  · intro hd hcfg
    have hnex : ¬ ∃ c ∈ configs,
        "ns1" ++ "/" ++ "svc1" ∈ validatingWebhookServiceNameIndexerFunc c := by
      rintro ⟨c, hc, hmem⟩
      rw [hk] at hmem
      exact hcfg c hc hmem
    have h1 := NamedUserAuthorizer_indexClient csrs configs (requestUserInfo csr.Spec)
      "svc1.ns1.cluster" "ns1" "svc1" h3
    rw [decide_eq_false hnex] at h1
    have hu : userAuthorizedForRequest (NamedUserAuthorizer (indexClient csrs configs))
        csr.Spec cr = ⟨false, none, ["svc1.ns1.cluster"]⟩ := by
      unfold userAuthorizedForRequest
      rw [hids _ hd]
      simp [authorizeIdentifiers, h1]
    rw [hu] at hrun
    simpa using hrun

/-- Witness for C6, amended: the example request for `svc1.ns1.cluster` is
approved over an index holding the example configuration and left Pending
over an empty index. -/
theorem Reconcile_endToEnd_witness :
    (ApprovalReconciler.Reconcile (exampleDecoders (exampleParsed "" ["svc1.ns1.cluster"] []))
        7 (exampleReconciler (exampleCSR []) [exampleConfiguration]) "csr1").approvalUpdates =
      [exampleCSR [⟨"Approved", "AutoApproved",
        "Automatically approved by webhook-operator", 7⟩]] ∧
    ApprovalReconciler.Reconcile (exampleDecoders (exampleParsed "" ["svc1.ns1.cluster"] []))
        7 (exampleReconciler (exampleCSR []) []) "csr1" =
      { err := none, panicked := false, authorizerCalls := ["svc1.ns1.cluster"],
        approvalUpdates := [] } :=
  ⟨(Reconcile_endToEnd (exampleDecoders (exampleParsed "" ["svc1.ns1.cluster"] []))
      7 (exampleReconciler (exampleCSR []) [exampleConfiguration]) "csr1" (exampleCSR [])
      (exampleParsed "" ["svc1.ns1.cluster"] []) [exampleCSR []] [exampleConfiguration]
      (by decide) rfl (by decide) rfl (by intro u; simp [exampleCSR]; tauto)
      rfl rfl rfl rfl rfl).2.1 rfl
      ⟨exampleConfiguration, by simp, ⟨"hook1", ⟨some ⟨"ns1", "svc1"⟩⟩⟩,
        by simp [exampleConfiguration], rfl⟩,
   (Reconcile_endToEnd (exampleDecoders (exampleParsed "" ["svc1.ns1.cluster"] []))
      7 (exampleReconciler (exampleCSR []) []) "csr1" (exampleCSR [])
      (exampleParsed "" ["svc1.ns1.cluster"] []) [exampleCSR []] []
      (by decide) rfl (by decide) rfl (by intro u; simp [exampleCSR]; tauto)
      rfl rfl rfl rfl rfl).2.2 rfl (by simp)⟩


/-! ## The order on strings -/

theorem charsLess_iff_lt (a b : List Char) : charsLess a b = true ↔ a < b := by
  induction a generalizing b with
  | nil =>
    cases b with
    | nil =>
      simp only [charsLess, Bool.false_eq_true, false_iff]
      intro h; cases h
    | cons y ys =>
      simp only [charsLess, true_iff]
      exact List.Lex.nil
  | cons x xs ih =>
    cases b with
    | nil =>
      simp only [charsLess, Bool.false_eq_true, false_iff]
      intro h; cases h
    | cons y ys =>
      have hxy : x.toNat < y.toNat ↔ x < y := Iff.rfl
      have hyx : y.toNat < x.toNat ↔ y < x := Iff.rfl
      unfold charsLess
      by_cases h1 : x < y
      · simp only [hxy.2 h1, if_true, true_iff]
        exact List.Lex.rel h1
      · by_cases h2 : y < x
        · simp only [mt hxy.1 h1, hyx.2 h2, if_false, if_true, Bool.false_eq_true, false_iff]
          intro h
          cases h with
          | cons _ => exact lt_irrefl _ h2
          | rel h => exact h1 h
        · have hxeq : x = y := le_antisymm (not_lt.1 h2) (not_lt.1 h1)
          subst hxeq
          simp only [mt hxy.1 h1, if_false, ih]
          constructor
          · exact List.Lex.cons
          · intro h
            cases h with
            | cons h => exact h
            | rel h => exact absurd h h1

theorem stringLess_iff_lt (a b : String) : stringLess a b = true ↔ a < b := by
  unfold stringLess
  rw [charsLess_iff_lt]
  exact String.lt_iff_toList_lt.symm


theorem stringLess_irrefl (a : String) : stringLess a a = false := by
  cases h : stringLess a a with
  | false => rfl
  | true => exact absurd ((stringLess_iff_lt a a).1 h) (lt_irrefl a)

theorem stringLess_trans {a b c : String} (h1 : stringLess a b = true)
    (h2 : stringLess b c = true) : stringLess a c = true :=
  (stringLess_iff_lt a c).2
    (lt_trans ((stringLess_iff_lt a b).1 h1) ((stringLess_iff_lt b c).1 h2))

theorem stringLess_of_not {a b : String} (h : ¬ stringLess a b = true) (hne : a ≠ b) :
    stringLess b a = true := by
  rw [stringLess_iff_lt] at h ⊢
  rcases lt_trichotomy a b with h1 | h1 | h1
  · exact absurd h1 h
  · exact absurd h1 hne
  · exact h1

theorem stringLess_asymm {a b : String} (h1 : stringLess a b = true)
    (h2 : stringLess b a = true) : False :=
  lt_asymm ((stringLess_iff_lt a b).1 h1) ((stringLess_iff_lt b a).1 h2)

/-! ## Sorted identifier lists -/

/-- Strictly ascending in the order of `stringLess`. -/
theorem StringSet.pairwise_sortedInsert (x : String) (l : List String)
    (hl : l.Pairwise (fun a b => stringLess a b = true)) (hx : x ∉ l) :
    (StringSet.sortedInsert x l).Pairwise (fun a b => stringLess a b = true) := by
  induction l with
  | nil => simp [StringSet.sortedInsert]
  | cons y ys ih =>
    obtain ⟨hy, hys⟩ := List.pairwise_cons.1 hl
    have hxy : x ≠ y := fun e => hx (by simp [e])
    have hxys : x ∉ ys := fun e => hx (List.mem_cons_of_mem _ e)
    unfold StringSet.sortedInsert
    by_cases h : stringLess y x = true
    · simp only [h, if_true]
      refine List.pairwise_cons.2 ⟨?_, ih hys hxys⟩
      intro z hz
      rcases (StringSet.mem_sortedInsert x z ys).1 hz with e | hz
      · rw [e]; exact h
      · exact hy z hz
    · simp only [h, if_false]
      have hlt : stringLess x y = true := stringLess_of_not h (Ne.symm hxy)
      refine List.pairwise_cons.2 ⟨?_, hl⟩
      intro z hz
      rcases List.mem_cons.1 hz with e | hz
      · rw [e]; exact hlt
      · exact stringLess_trans hlt (hy z hz)

theorem StringSet.pairwise_sortStrings (l : List String) (hl : l.Nodup) :
    (StringSet.sortStrings l).Pairwise (fun a b => stringLess a b = true) := by
  induction l with
  | nil => simp [StringSet.sortStrings]
  | cons x xs ih =>
    obtain ⟨hx, hxs⟩ := List.nodup_cons.1 hl
    exact StringSet.pairwise_sortedInsert x _ (ih hxs)
      (fun h => hx ((StringSet.mem_sortStrings xs x).1 h))

theorem pairwise_requestIdentifiers (csr : x509_CertificateRequest) :
    (requestIdentifiers csr).Pairwise (fun a b => stringLess a b = true) := by
  unfold requestIdentifiers StringSet.toSortedList StringSet.NewString
  apply StringSet.pairwise_sortStrings
  have h1 : (StringSet.Insert [] csr.DNSNames).Nodup :=
    StringSet.nodup_Insert csr.DNSNames [] List.nodup_nil
  by_cases h : csr.Subject.CommonName = ""
  · simpa [h] using h1
  · simp only [bne_iff_ne, ne_eq, h, not_false_eq_true, if_true]
    exact StringSet.nodup_Insert _ _ h1

theorem nodup_of_pairwise_stringLess (l : List String)
    (hl : l.Pairwise (fun a b => stringLess a b = true)) : l.Nodup := by
  refine List.Pairwise.imp ?_ hl
  intro a b h e
  rw [e, stringLess_irrefl] at h
  exact absurd h (by decide)

/-- Two strictly ascending lists with the same members are equal. -/
theorem eq_of_pairwise_stringLess (l1 l2 : List String)
    (h1 : l1.Pairwise (fun a b => stringLess a b = true))
    (h2 : l2.Pairwise (fun a b => stringLess a b = true))
    (hmem : ∀ x, x ∈ l1 ↔ x ∈ l2) : l1 = l2 := by
  induction l1 generalizing l2 with
  | nil =>
    cases l2 with
    | nil => rfl
    | cons y ys => exact absurd ((hmem y).2 (by simp)) (by simp)
  | cons x xs ih =>
    cases l2 with
    | nil => exact absurd ((hmem x).1 (by simp)) (by simp)
    | cons y ys =>
      obtain ⟨hx, hxs⟩ := List.pairwise_cons.1 h1
      obtain ⟨hy, hys⟩ := List.pairwise_cons.1 h2
      have hxy : x = y := by
        rcases List.mem_cons.1 ((hmem x).1 (by simp)) with e | hxin
        · exact e
        · rcases List.mem_cons.1 ((hmem y).2 (by simp)) with e | hyin
          · exact e.symm
          · exact (stringLess_asymm (hx y hyin) (hy x hxin)).elim
      subst hxy
      have hrest : ∀ z, z ∈ xs ↔ z ∈ ys := by
        intro z
        constructor
        · intro hz
          rcases List.mem_cons.1 ((hmem z).1 (List.mem_cons_of_mem _ hz)) with e | h
          · subst e
            exact absurd (hx z hz) (by simp [stringLess_irrefl])
          · exact h
        · intro hz
          rcases List.mem_cons.1 ((hmem z).2 (List.mem_cons_of_mem _ hz)) with e | h
          · subst e
            exact absurd (hy z hz) (by simp [stringLess_irrefl])
          · exact h
      rw [ih ys hxs hys hrest]


/-! ## The authorization loop on a sorted identifier list -/

theorem authorizeIdentifiers_cons_err (authorizer : UserAuthorizer) (userInfo : UserInfo)
    (a : String) (rest : List String) (b : Bool) (e : Error)
    (h : authorizer userInfo a = (b, some e)) :
    authorizeIdentifiers authorizer userInfo (a :: rest) = ⟨false, some e, [a]⟩ := by
  unfold authorizeIdentifiers
  rw [h]
  cases b <;> rfl

theorem authorizeIdentifiers_cons_deny (authorizer : UserAuthorizer) (userInfo : UserInfo)
    (a : String) (rest : List String) (h : authorizer userInfo a = (false, none)) :
    authorizeIdentifiers authorizer userInfo (a :: rest) = ⟨false, none, [a]⟩ := by
  unfold authorizeIdentifiers
  rw [h]

theorem authorizeIdentifiers_cons_ok (authorizer : UserAuthorizer) (userInfo : UserInfo)
    (a : String) (rest : List String) (h : authorizer userInfo a = (true, none)) :
    authorizeIdentifiers authorizer userInfo (a :: rest) =
      ⟨(authorizeIdentifiers authorizer userInfo rest).allowed,
        (authorizeIdentifiers authorizer userInfo rest).err,
        a :: (authorizeIdentifiers authorizer userInfo rest).calls⟩ := by
  conv => lhs; unfold authorizeIdentifiers
  rw [h]

theorem authorizeIdentifiers_error_of_first (authorizer : UserAuthorizer)
    (userInfo : UserInfo) (ids : List String)
    (hs : ids.Pairwise (fun a b => stringLess a b = true))
    (x : String) (e : Error) (hx : x ∈ ids)
    (hbefore : ∀ y ∈ ids, stringLess y x = true → authorizer userInfo y = (true, none))
    (herr : (authorizer userInfo x).2 = some e) :
    (authorizeIdentifiers authorizer userInfo ids).allowed = false ∧
    (authorizeIdentifiers authorizer userInfo ids).err = some e := by
  induction ids with
  | nil => exact absurd hx (by simp)
  | cons a rest ih =>
    obtain ⟨ha, hrest⟩ := List.pairwise_cons.1 hs
    rcases List.mem_cons.1 hx with hxa | hxr
    · subst hxa
      rcases h : authorizer userInfo x with ⟨b, err⟩
      rw [h] at herr
      simp only at herr
      subst herr
      rw [authorizeIdentifiers_cons_err authorizer userInfo x rest b e h]
      exact ⟨rfl, rfl⟩
    · have hok : authorizer userInfo a = (true, none) :=
        hbefore a (by simp) (ha x hxr)
      have hrec := ih hrest hxr (fun y hy hlt => hbefore y (List.mem_cons_of_mem _ hy) hlt)
      rw [authorizeIdentifiers_cons_ok authorizer userInfo a rest hok]
      exact hrec

theorem authorizeIdentifiers_err_none (authorizer : UserAuthorizer)
    (userInfo : UserInfo) (ids : List String)
    (h : (authorizeIdentifiers authorizer userInfo ids).err = none) :
    ∀ x ∈ (authorizeIdentifiers authorizer userInfo ids).calls,
      (authorizer userInfo x).2 = none := by
  induction ids with
  | nil => intro x hx; simp [authorizeIdentifiers] at hx
  | cons a rest ih =>
    rcases ha : authorizer userInfo a with ⟨b, err⟩
    cases err with
    | some e =>
      rw [authorizeIdentifiers_cons_err authorizer userInfo a rest b e ha] at h
      simp at h
    | none =>
      cases b with
      | false =>
        rw [authorizeIdentifiers_cons_deny authorizer userInfo a rest ha]
        intro x hx
        simp only [List.mem_singleton] at hx
        rw [hx, ha]
      | true =>
        rw [authorizeIdentifiers_cons_ok authorizer userInfo a rest ha] at h ⊢
        simp only at h ⊢
        intro x hx
        rcases List.mem_cons.1 hx with e | hx
        · rw [e, ha]
        · exact ih h x hx

theorem authorizeIdentifiers_calls_prefix (authorizer : UserAuthorizer)
    (userInfo : UserInfo) (ids : List String) :
    (authorizeIdentifiers authorizer userInfo ids).calls <+: ids := by
  induction ids with
  | nil => simp [authorizeIdentifiers]
  | cons a rest ih =>
    rcases ha : authorizer userInfo a with ⟨b, err⟩
    cases err with
    | some e =>
      rw [authorizeIdentifiers_cons_err authorizer userInfo a rest b e ha]
      exact ⟨rest, rfl⟩
    | none =>
      cases b with
      | false =>
        rw [authorizeIdentifiers_cons_deny authorizer userInfo a rest ha]
        exact ⟨rest, rfl⟩
      | true =>
        rw [authorizeIdentifiers_cons_ok authorizer userInfo a rest ha]
        obtain ⟨t, ht⟩ := ih
        exact ⟨t, by simp only [List.cons_append, ht]⟩

theorem mem_authorizeIdentifiers_calls (authorizer : UserAuthorizer)
    (userInfo : UserInfo) (ids : List String)
    (hs : ids.Pairwise (fun a b => stringLess a b = true)) (x : String) :
    x ∈ (authorizeIdentifiers authorizer userInfo ids).calls ↔
      (x ∈ ids ∧ ∀ y ∈ ids, stringLess y x = true → authorizer userInfo y = (true, none)) := by
  induction ids with
  | nil => simp [authorizeIdentifiers]
  | cons a rest ih =>
    obtain ⟨ha, hrest⟩ := List.pairwise_cons.1 hs
    have self_ok : ∀ y ∈ a :: rest, stringLess y a = true →
        authorizer userInfo y = (true, none) := by
      intro y hy hlt
      rcases List.mem_cons.1 hy with e | hy
      · rw [e, stringLess_irrefl] at hlt; exact absurd hlt (by decide)
      · exact (stringLess_asymm (ha y hy) hlt).elim
    have stop : authorizer userInfo a ≠ (true, none) →
        (x ∈ [a] ↔ (x ∈ a :: rest ∧ ∀ y ∈ a :: rest, stringLess y x = true →
          authorizer userInfo y = (true, none))) := by
      intro hne
      constructor
      · intro hx
        rw [List.mem_singleton.1 hx]
        exact ⟨by simp, self_ok⟩
      · rintro ⟨hx, hall⟩
        rcases List.mem_cons.1 hx with e | hx
        · simp [e]
        · exact absurd (hall a (by simp) (ha x hx)) hne
    rcases hres : authorizer userInfo a with ⟨b, err⟩
    cases err with
    | some e =>
      rw [authorizeIdentifiers_cons_err authorizer userInfo a rest b e hres]
      exact stop (by rw [hres]; simp)
    | none =>
      cases b with
      | false =>
        rw [authorizeIdentifiers_cons_deny authorizer userInfo a rest hres]
        exact stop (by rw [hres]; simp)
      | true =>
        rw [authorizeIdentifiers_cons_ok authorizer userInfo a rest hres]
        simp only [List.mem_cons, ih hrest]
        constructor
        · rintro (e | ⟨hx, hall⟩)
          · subst e
            exact ⟨Or.inl rfl, fun y hy hlt => self_ok y (List.mem_cons.2 hy) hlt⟩
          · refine ⟨Or.inr hx, ?_⟩
            rintro y (e | hy) hlt
            · rw [e]; exact hres
            · exact hall y hy hlt
        · rintro ⟨hx | hx, hall⟩
          · exact Or.inl hx
          · exact Or.inr ⟨hx, fun y hy hlt => hall y (Or.inr hy) hlt⟩

theorem authorizeIdentifiers_calls_all (authorizer : UserAuthorizer)
    (userInfo : UserInfo) (ids : List String)
    (h : ∀ x ∈ ids, authorizer userInfo x = (true, none)) :
    (authorizeIdentifiers authorizer userInfo ids).calls = ids := by
  induction ids with
  | nil => rfl
  | cons a rest ih =>
    rw [authorizeIdentifiers_cons_ok authorizer userInfo a rest (h a (by simp)),
      ih (fun x hx => h x (List.mem_cons_of_mem _ hx))]


/-- C11: if every identifier of the request smaller than `identifier` gets
`(true, nil)` and `identifier` gets the error `e`, then
`userAuthorizedForRequest` returns `(false, e)`, the same error value; and
when it returns a nil error, none of the authorizer calls it made returned an
error. -/
theorem userAuthorizedForRequest_error_propagated (authorizer : UserAuthorizer)
    (req : CertificateSigningRequestSpec) (csr : x509_CertificateRequest) :
    (∀ (identifier : String) (e : Error),
      (identifier ∈ csr.DNSNames ∨
        (csr.Subject.CommonName ≠ "" ∧ identifier = csr.Subject.CommonName)) →
      (∀ y : String,
        (y ∈ csr.DNSNames ∨ (csr.Subject.CommonName ≠ "" ∧ y = csr.Subject.CommonName)) →
        stringLess y identifier = true →
        authorizer ⟨req.Username, req.UID, req.Groups, req.Extra⟩ y = (true, none)) →
      (authorizer ⟨req.Username, req.UID, req.Groups, req.Extra⟩ identifier).2 = some e →
      (userAuthorizedForRequest authorizer req csr).allowed = false ∧
      (userAuthorizedForRequest authorizer req csr).err = some e) ∧
    ((userAuthorizedForRequest authorizer req csr).err = none →
      ∀ x ∈ (userAuthorizedForRequest authorizer req csr).calls,
        (authorizer ⟨req.Username, req.UID, req.Groups, req.Extra⟩ x).2 = none) := by
  unfold userAuthorizedForRequest
  rw [requestUserInfo_eq]
  constructor
  · intro identifier e hid hbefore herr
    exact authorizeIdentifiers_error_of_first authorizer _ (requestIdentifiers csr)
      (pairwise_requestIdentifiers csr) identifier e
      ((mem_requestIdentifiers csr identifier).2 hid)
      (fun y hy hlt => hbefore y ((mem_requestIdentifiers csr y).1 hy) hlt) herr
  · intro h
    exact authorizeIdentifiers_err_none authorizer _ (requestIdentifiers csr) h

/-- Witness for C11: `a.svc.cluster` is allowed, the store fails on
`err.svc.cluster`, and that error comes back. -/
theorem userAuthorizedForRequest_error_propagated_witness :
    (userAuthorizedForRequest exampleFailingAuthorizer (exampleCSR []).Spec
        (exampleParsed "" ["ok.svc.cluster", "err.svc.cluster", "a.svc.cluster"] [])).allowed =
      false ∧
    (userAuthorizedForRequest exampleFailingAuthorizer (exampleCSR []).Spec
        (exampleParsed "" ["ok.svc.cluster", "err.svc.cluster", "a.svc.cluster"] [])).err =
      some (.external "store unavailable" false) :=
  (userAuthorizedForRequest_error_propagated exampleFailingAuthorizer (exampleCSR []).Spec
    (exampleParsed "" ["ok.svc.cluster", "err.svc.cluster", "a.svc.cluster"] [])).1
    "err.svc.cluster" (.external "store unavailable" false) (Or.inl (by decide))
    (by
      intro y hy hlt
      rcases hy with hy | hy
      · simp only [exampleParsed, List.mem_cons, List.mem_singleton, List.not_mem_nil,
          or_false] at hy
        rcases hy with rfl | rfl | rfl
        · exact absurd hlt (by decide)
        · exact absurd hlt (by decide)
        · decide
      · exact absurd rfl hy.1)
    (by decide)

/-- C12: the identifiers `userAuthorizedForRequest` passes to the authorizer
are in strictly ascending order (so each is passed once), and the authorizer
is called on `x` exactly when `x` is an identifier of the request and every
smaller identifier of the request got `(true, nil)`: on each identifier up to
and including the first that is denied or errors, on none after it, and on
all of them when none is denied or errors.  With `bad.svc.cluster` denied,
the identifiers `bad.svc.cluster` and `ok.svc.cluster` cost one call. -/
theorem userAuthorizedForRequest_calls (authorizer : UserAuthorizer)
    (req : CertificateSigningRequestSpec) (csr : x509_CertificateRequest) :
    (userAuthorizedForRequest authorizer req csr).calls.Pairwise
      (fun a b => stringLess a b = true) ∧
    (∀ x : String, x ∈ (userAuthorizedForRequest authorizer req csr).calls ↔
      ((x ∈ csr.DNSNames ∨ (csr.Subject.CommonName ≠ "" ∧ x = csr.Subject.CommonName)) ∧
        ∀ y : String,
          (y ∈ csr.DNSNames ∨ (csr.Subject.CommonName ≠ "" ∧ y = csr.Subject.CommonName)) →
          stringLess y x = true →
          authorizer ⟨req.Username, req.UID, req.Groups, req.Extra⟩ y = (true, none))) ∧
    (userAuthorizedForRequest authorizer req csr).calls <+: requestIdentifiers csr ∧
    ((∀ x : String,
        (x ∈ csr.DNSNames ∨ (csr.Subject.CommonName ≠ "" ∧ x = csr.Subject.CommonName)) →
        authorizer ⟨req.Username, req.UID, req.Groups, req.Extra⟩ x = (true, none)) →
      (userAuthorizedForRequest authorizer req csr).calls = requestIdentifiers csr) ∧
    (userAuthorizedForRequest exampleAuthorizer req
      (exampleParsed "" ["ok.svc.cluster", "bad.svc.cluster"] [])).calls =
      ["bad.svc.cluster"] := by
  have hpre := authorizeIdentifiers_calls_prefix authorizer (requestUserInfo req)
    (requestIdentifiers csr)
  have hsorted := pairwise_requestIdentifiers csr
  refine ⟨?_, ?_, ?_, ?_, ?_⟩
  · exact List.Pairwise.sublist hpre.sublist hsorted
  · intro x
    unfold userAuthorizedForRequest
    rw [mem_authorizeIdentifiers_calls authorizer _ _ hsorted x, requestUserInfo_eq,
      mem_requestIdentifiers]
    constructor
    · rintro ⟨hx, hall⟩
      exact ⟨hx, fun y hy hlt => hall y ((mem_requestIdentifiers csr y).2 hy) hlt⟩
    · rintro ⟨hx, hall⟩
      exact ⟨hx, fun y hy hlt => hall y ((mem_requestIdentifiers csr y).1 hy) hlt⟩
  · exact hpre
  · intro hall
    unfold userAuthorizedForRequest
    apply authorizeIdentifiers_calls_all
    intro x hx
    rw [requestUserInfo_eq]
    exact hall x ((mem_requestIdentifiers csr x).1 hx)
  · have hids : requestIdentifiers (exampleParsed "" ["ok.svc.cluster", "bad.svc.cluster"] []) =
        ["bad.svc.cluster", "ok.svc.cluster"] := by decide
    unfold userAuthorizedForRequest
    rw [hids]
    exact congrArg AuthorizationRun.calls
      (authorizeIdentifiers_cons_deny exampleAuthorizer _ "bad.svc.cluster"
        ["ok.svc.cluster"] rfl)

/-- Witness for C12: all three identifiers allowed, all three called in
ascending order. -/
theorem userAuthorizedForRequest_calls_witness :
    (userAuthorizedForRequest exampleAuthorizer (exampleCSR []).Spec
        (exampleParsed "ok.svc.cluster" ["z.svc.cluster", "a.svc.cluster"] [])).calls =
      requestIdentifiers
        (exampleParsed "ok.svc.cluster" ["z.svc.cluster", "a.svc.cluster"] []) ∧
    requestIdentifiers (exampleParsed "ok.svc.cluster" ["z.svc.cluster", "a.svc.cluster"] []) =
      ["a.svc.cluster", "ok.svc.cluster", "z.svc.cluster"] :=
  ⟨(userAuthorizedForRequest_calls exampleAuthorizer (exampleCSR []).Spec
      (exampleParsed "ok.svc.cluster" ["z.svc.cluster", "a.svc.cluster"] [])).2.2.2.1
      (by
        intro x hx
        have hne : x ≠ "bad.svc.cluster" := by
          rcases hx with hx | hx
          · simp only [exampleParsed, List.mem_cons, List.mem_singleton, List.not_mem_nil,
              or_false] at hx
            rcases hx with rfl | rfl <;> decide
          · rw [hx.2]; decide
        simp [exampleAuthorizer, hne]),
   by decide⟩

/-- C13: the identifier list `userAuthorizedForRequest` ranges over holds
exactly the DNS names and the common name when that is not empty, each once,
in strictly ascending order; so it is the same for any request with the same
common name and the same set of DNS names.  For common name `a.b.c` and DNS
names `x.y.z`, `a.b.c` it is `a.b.c`, `x.y.z`. -/
theorem requestIdentifiers_spec (csr : x509_CertificateRequest) :
    (∀ x : String, x ∈ requestIdentifiers csr ↔
      (x ∈ csr.DNSNames ∨ (csr.Subject.CommonName ≠ "" ∧ x = csr.Subject.CommonName))) ∧
    (requestIdentifiers csr).Nodup ∧
    (requestIdentifiers csr).Pairwise (fun a b => stringLess a b = true) ∧
    (∀ csr2 : x509_CertificateRequest,
      csr2.Subject.CommonName = csr.Subject.CommonName →
      (∀ x : String, x ∈ csr2.DNSNames ↔ x ∈ csr.DNSNames) →
      requestIdentifiers csr2 = requestIdentifiers csr) ∧
    requestIdentifiers (exampleParsed "a.b.c" ["x.y.z", "a.b.c"] []) = ["a.b.c", "x.y.z"] := by
  refine ⟨mem_requestIdentifiers csr, ?_, pairwise_requestIdentifiers csr, ?_, by decide⟩
  · exact nodup_of_pairwise_stringLess _ (pairwise_requestIdentifiers csr)
  · intro csr2 hcn hdns
    apply eq_of_pairwise_stringLess _ _ (pairwise_requestIdentifiers csr2)
      (pairwise_requestIdentifiers csr)
    intro x
    rw [mem_requestIdentifiers, mem_requestIdentifiers, hcn, hdns]

/-- Witness for C13: reordering and repeating the DNS names changes nothing. -/
theorem requestIdentifiers_spec_witness :
    requestIdentifiers (exampleParsed "a.b.c" ["a.b.c", "x.y.z", "x.y.z"] []) =
      requestIdentifiers (exampleParsed "a.b.c" ["x.y.z", "a.b.c"] []) :=
  (requestIdentifiers_spec (exampleParsed "a.b.c" ["x.y.z", "a.b.c"] [])).2.2.2.1
    (exampleParsed "a.b.c" ["a.b.c", "x.y.z", "x.y.z"] []) rfl
    (by intro x; simp [exampleParsed]; tauto)


/-- C14: what `parseCSR` does on every input.  When `pem.Decode` finds no PEM
block, the nil block is dereferenced and `parseCSR` panics instead of
returning an error.  A block of another type gives the type error, a block
that does not parse gives the parser's error, and only a parsed block gives a
request. -/
theorem parseCSR_outcomes (lib : Decoders) (csr : Bytes) :
    (lib.pem_Decode csr = none →
      parseCSR lib csr = .panic "invalid memory address or nil pointer dereference") ∧
    (∀ b, lib.pem_Decode csr = some b → b.Type_ ≠ "CERTIFICATE REQUEST" →
      parseCSR lib csr =
        .err (.errorf "expected PEM data of type 'CERTIFICATE REQUEST' but found %q"
          [b.Type_])) ∧
    (∀ b e, lib.pem_Decode csr = some b → b.Type_ = "CERTIFICATE REQUEST" →
      lib.x509_ParseCertificateRequest b.Bytes = .error e → parseCSR lib csr = .err e) ∧
    (∀ b cr, lib.pem_Decode csr = some b → b.Type_ = "CERTIFICATE REQUEST" →
      lib.x509_ParseCertificateRequest b.Bytes = .ok cr → parseCSR lib csr = .ok cr) := by
  refine ⟨?_, ?_, ?_, ?_⟩
  · intro h
    simp [parseCSR, h]
  · intro b h ht
    simp [parseCSR, h, ht]
  · intro b e h ht hp
    simp [parseCSR, h, ht, hp]
  · intro b cr h ht hp
    simp [parseCSR, h, ht, hp]

/-- Witness for C14: a payload in which no PEM block is found makes
`parseCSR` panic. -/
theorem parseCSR_outcomes_witness :
    parseCSR noPemDecoders [104, 101, 108, 108, 111] =
      .panic "invalid memory address or nil pointer dereference" :=
  (parseCSR_outcomes noPemDecoders [104, 101, 108, 108, 111]).1 rfl

/-- C15: for a fetched Pending request for the handled signer.  When no PEM
block is found in the payload `Reconcile` panics (and submits nothing)
instead of returning nil.  When `parseCSR` returns an error, or
`isWebhookServingCSR` rejects, it returns nil having done nothing; when
`userAuthorizedForRequest` returns `(false, nil)` it returns nil and submits
nothing; when `userAuthorizedForRequest` returns an error it returns that
error and submits nothing.  Every Denied condition of a submitted object was
on the request already. -/
theorem Reconcile_error_policy (lib : Decoders) (now : Nat) (r : ApprovalReconciler)
    (req : String) (csr : CertificateSigningRequest)
    (hget : r.Client.Get req = .ok csr)
    (hpending : GetCertApprovalCondition csr.Status = (false, false))
    (hsigner : csr.Spec.SignerName = some "cert-manager.io/webhook-serving") :
    (lib.pem_Decode csr.Spec.Request = none →
      (ApprovalReconciler.Reconcile lib now r req).panicked = true ∧
      (ApprovalReconciler.Reconcile lib now r req).approvalUpdates = []) ∧
    (∀ e, parseCSR lib csr.Spec.Request = .err e →
      ApprovalReconciler.Reconcile lib now r req =
        { err := none, panicked := false, authorizerCalls := [], approvalUpdates := [] }) ∧
    (∀ cr, parseCSR lib csr.Spec.Request = .ok cr → isWebhookServingCSR csr.Spec cr = false →
      ApprovalReconciler.Reconcile lib now r req =
        { err := none, panicked := false, authorizerCalls := [], approvalUpdates := [] }) ∧
    (∀ cr, parseCSR lib csr.Spec.Request = .ok cr → isWebhookServingCSR csr.Spec cr = true →
      (userAuthorizedForRequest r.Authorizer csr.Spec cr).err = none →
      (userAuthorizedForRequest r.Authorizer csr.Spec cr).allowed = false →
      (ApprovalReconciler.Reconcile lib now r req).err = none ∧
      (ApprovalReconciler.Reconcile lib now r req).panicked = false ∧
      (ApprovalReconciler.Reconcile lib now r req).approvalUpdates = []) ∧
    (∀ cr e, parseCSR lib csr.Spec.Request = .ok cr → isWebhookServingCSR csr.Spec cr = true →
      (userAuthorizedForRequest r.Authorizer csr.Spec cr).err = some e →
      (ApprovalReconciler.Reconcile lib now r req).err = some e ∧
      (ApprovalReconciler.Reconcile lib now r req).panicked = false ∧
      (ApprovalReconciler.Reconcile lib now r req).approvalUpdates = []) ∧
    (∀ u ∈ (ApprovalReconciler.Reconcile lib now r req).approvalUpdates,
      ∀ c ∈ u.Status.Conditions, c.Type_ = "Denied" → c ∈ csr.Status.Conditions) := by
  have hsig : csr.Spec.SignerName = some WebhookServingSignerName := hsigner
  have hhead : ApprovalReconciler.Reconcile lib now r req =
      match parseCSR lib csr.Spec.Request with
      | .panic _ => ⟨none, true, [], []⟩
      | .err _ => ReconcileRun.noop
      | .ok x509Cr =>
        if !isWebhookServingCSR csr.Spec x509Cr then ReconcileRun.noop
        else
          match (userAuthorizedForRequest r.Authorizer csr.Spec x509Cr).err with
          | some err =>
            ⟨some err, false, (userAuthorizedForRequest r.Authorizer csr.Spec x509Cr).calls, []⟩
          | none =>
            if !(userAuthorizedForRequest r.Authorizer csr.Spec x509Cr).allowed then
              ⟨none, false, (userAuthorizedForRequest r.Authorizer csr.Spec x509Cr).calls, []⟩
            else
              match r.UpdateApproval
                { csr with
                  Status :=
                    { csr.Status with
                      Conditions := csr.Status.Conditions ++ [approvedCondition now] } } with
              | .error err =>
                ⟨some err, false,
                  (userAuthorizedForRequest r.Authorizer csr.Spec x509Cr).calls,
                  [{ csr with
                     Status :=
                       { csr.Status with
                         Conditions := csr.Status.Conditions ++ [approvedCondition now] } }]⟩
              | .ok _ =>
                ⟨none, false,
                  (userAuthorizedForRequest r.Authorizer csr.Spec x509Cr).calls,
                  [{ csr with
                     Status :=
                       { csr.Status with
                         Conditions := csr.Status.Conditions ++ [approvedCondition now] } }]⟩ := by
    unfold ApprovalReconciler.Reconcile
    simp only [hget, hpending, hsig]
    simp
  refine ⟨?_, ?_, ?_, ?_, ?_, ?_⟩
  · intro hnone
    have hp : parseCSR lib csr.Spec.Request =
        .panic "invalid memory address or nil pointer dereference" := by
      simp [parseCSR, hnone]
    rw [hhead, hp]
    exact ⟨rfl, rfl⟩
  · intro e hp
    rw [hhead, hp]
    rfl
  · intro cr hp hv
    rw [hhead, hp]
    simp [hv, ReconcileRun.noop]
  · intro cr hp hv herr hal
    rw [hhead, hp]
    simp [hv, herr, hal]
  · intro cr e hp hv herr
    rw [hhead, hp]
    simp [hv, herr]
  · intro u hu c hc hden
    have hcases : (ApprovalReconciler.Reconcile lib now r req).approvalUpdates = [] ∨
        (ApprovalReconciler.Reconcile lib now r req).approvalUpdates =
          [{ csr with
             Status :=
               { csr.Status with
                 Conditions := csr.Status.Conditions ++ [approvedCondition now] } }] := by
      rw [hhead]
      rcases parseCSR lib csr.Spec.Request with cr | e | m
      · simp only
        cases isWebhookServingCSR csr.Spec cr
        · exact Or.inl rfl
        · simp only [Bool.not_true, Bool.false_eq_true, if_false]
          rcases (userAuthorizedForRequest r.Authorizer csr.Spec cr).err with _ | err
          · simp only
            cases (userAuthorizedForRequest r.Authorizer csr.Spec cr).allowed
            · exact Or.inl rfl
            · simp only [Bool.not_true, Bool.false_eq_true, if_false]
              cases r.UpdateApproval _ <;> exact Or.inr rfl
          · exact Or.inl rfl
      · exact Or.inl rfl
      · exact Or.inl rfl
    rcases hcases with h | h
    · rw [h] at hu
      exact absurd hu (by simp)
    · rw [h] at hu
      rw [List.mem_singleton.1 hu] at hc
      simp only [List.mem_append, List.mem_singleton] at hc
      rcases hc with hc | hc
      · exact hc
      · rw [hc] at hden
        have happ : (approvedCondition now).Type_ = "Approved" := rfl
        rw [happ] at hden
        exact absurd hden (by decide)

/-- Witness for C15: the Pending example request with a payload holding no
PEM block makes `Reconcile` panic; denied by the authorizer it is left
Pending with a nil error. -/
theorem Reconcile_error_policy_witness :
    (ApprovalReconciler.Reconcile noPemDecoders 7
        (exampleReconciler (exampleCSR []) [exampleConfiguration]) "csr1").panicked = true ∧
    (ApprovalReconciler.Reconcile (exampleDecoders (exampleParsed "" ["svc1.ns1.cluster"] []))
        7 (exampleReconciler (exampleCSR []) []) "csr1").err = none :=
  ⟨((Reconcile_error_policy noPemDecoders 7
      (exampleReconciler (exampleCSR []) [exampleConfiguration]) "csr1" (exampleCSR [])
      (by decide) (by decide) rfl).1 rfl).1,
   ((Reconcile_error_policy (exampleDecoders (exampleParsed "" ["svc1.ns1.cluster"] []))
      7 (exampleReconciler (exampleCSR []) []) "csr1" (exampleCSR [])
      (by decide) (by decide) rfl).2.2.2.1
      (exampleParsed "" ["svc1.ns1.cluster"] []) rfl (by decide) (by decide) (by decide)).1⟩


/-- C16: the keys the indexer function emits for a configuration are the
strings `namespace/name` of the service references of its webhook entries
that have one, in entry order.  With the index as the set of held
configurations and a lookup returning those whose keys contain the key: a
client over the index answers a service-name query with that lookup; after a
configuration with an entry served by `name` in `ns` is registered the lookup
for `ns/name` contains it; and after it is removed from an index in which no
other configuration has that key the lookup is empty. -/
theorem serviceNameIndex_correct (c : ValidatingWebhookConfiguration) :
    validatingWebhookServiceNameIndexerFunc c =
      c.Webhooks.filterMap (fun wh =>
        wh.ClientConfig.Service.map (fun svc => svc.Namespace ++ "/" ++ svc.Name)) ∧
    (∀ (csrs : List CertificateSigningRequest) (configs : List ValidatingWebhookConfiguration)
      (key : String),
      (indexClient csrs configs).ListMatchingFields ".synthetic.serviceName" key =
        .ok (indexLookup configs key)) ∧
    (∀ (configs : List ValidatingWebhookConfiguration) (ns name : String),
      (∃ wh ∈ c.Webhooks, wh.ClientConfig.Service = some ⟨ns, name⟩) →
      c ∈ indexLookup (indexRegister configs c) (ns ++ "/" ++ name)) ∧
    (∀ (configs : List ValidatingWebhookConfiguration) (ns name : String),
      (∀ d ∈ configs, d.Name ≠ c.Name →
        ns ++ "/" ++ name ∉ validatingWebhookServiceNameIndexerFunc d) →
      indexLookup (indexRemove configs c.Name) (ns ++ "/" ++ name) = []) := by
  refine ⟨validatingWebhookServiceNameIndexerFunc_eq c, ?_, ?_, ?_⟩
  · intro csrs configs key
    rfl
  · rintro configs ns name ⟨wh, hwh, hs⟩
    unfold indexLookup indexRegister
    rw [List.mem_filter]
    refine ⟨by simp, ?_⟩
    have hk : ns ++ "/" ++ name ∈ validatingWebhookServiceNameIndexerFunc c :=
      (mem_validatingWebhookServiceNameIndexerFunc c _).2 ⟨wh, hwh, ⟨ns, name⟩, hs, rfl⟩
    simpa using hk
  · intro configs ns name hother
    unfold indexLookup indexRemove
    rw [List.filter_eq_nil_iff]
    intro d hd hk
    rw [List.mem_filter] at hd
    have hne : d.Name ≠ c.Name := by simpa using hd.2
    exact hother d hd.1 hne (by simpa using hk)

/-- Witness for C16: registering the example configuration in an empty index
makes the lookup for `ns1/svc1` contain it, and removing it empties the
lookup. -/
theorem serviceNameIndex_correct_witness :
    exampleConfiguration ∈
      indexLookup (indexRegister [] exampleConfiguration) ("ns1" ++ "/" ++ "svc1") ∧
    indexLookup (indexRemove (indexRegister [] exampleConfiguration) exampleConfiguration.Name)
      ("ns1" ++ "/" ++ "svc1") = [] :=
  ⟨(serviceNameIndex_correct exampleConfiguration).2.2.1 [] "ns1" "svc1"
      ⟨⟨"hook1", ⟨some ⟨"ns1", "svc1"⟩⟩⟩, by simp [exampleConfiguration], rfl⟩,
   (serviceNameIndex_correct exampleConfiguration).2.2.2
      (indexRegister [] exampleConfiguration) "ns1" "svc1"
      (by
        intro d hd hne
        simp only [indexRegister, List.filter_nil, List.nil_append, List.mem_singleton] at hd
        rw [hd] at hne
        exact absurd rfl hne)⟩

/-- C17 as stated fails: on the two-label identifier `svc.ns` the
service-endpoint authorizer of the code allows, while service-name matching
denies. -/
theorem ServiceEndpointAuthorizer_not_delegating :
    ServiceEndpointAuthorizer exampleOutsider "svc.ns" = (true, none) ∧
    ServiceEndpointAuthorizer_spec (indexClient [] [exampleConfiguration]) exampleOutsider
      "svc.ns" = (false, none) ∧
    ServiceEndpointAuthorizer exampleOutsider "svc.ns" ≠
      ServiceEndpointAuthorizer_spec (indexClient [] [exampleConfiguration]) exampleOutsider
        "svc.ns" := by
  decide

/-- C17, amended: the service-endpoint authorizer returns `(true, nil)` for
every identity and identifier, whatever the index holds; it returns what
service-name matching returns exactly when that returns `(true, nil)`. -/
theorem ServiceEndpointAuthorizer_always_allows (a : Client) (userInfo : UserInfo)
    (identifier : String) :
    ServiceEndpointAuthorizer userInfo identifier = (true, none) ∧
    (ServiceEndpointAuthorizer userInfo identifier =
        ServiceEndpointAuthorizer_spec a userInfo identifier ↔
      NamedUserAuthorizer a userInfo identifier = (true, none)) := by
  refine ⟨rfl, ?_⟩
  unfold ServiceEndpointAuthorizer ServiceEndpointAuthorizer_spec
  exact eq_comm

/-- C18 fails on the code: `IsAuthorized` does not read the identity (two
identities get the same answer), so a user that no returned configuration
names is authorized.  Here the only configuration for `ns1/svc1` names the
users `alice` and `bob` and the group `webhook-admins`, and `mallory`, in
neither list and not in the group, gets `(true, nil)`. -/
theorem NamedUserAuthorizer_ignores_principals (a : Client) (u1 u2 : UserInfo)
    (identifier : String) :
    NamedUserAuthorizer.IsAuthorized a u1 identifier =
      NamedUserAuthorizer.IsAuthorized a u2 identifier ∧
    NamedUserAuthorizer.IsAuthorized (indexClient [] [exampleAnnotatedConfiguration])
      exampleOutsider "svc1.ns1.cluster" =
      { allowed := true, err := none, queries := [(".synthetic.serviceName", "ns1/svc1")] } ∧
    indexLookup [exampleAnnotatedConfiguration] "ns1/svc1" = [exampleAnnotatedConfiguration] ∧
    configurationNamesUser exampleAnnotatedConfiguration exampleOutsider = false ∧
    configurationNamesUser exampleAnnotatedConfiguration ⟨"bob", "uid2", [], []⟩ = true := by
  refine ⟨rfl, ?_, ?_, ?_, ?_⟩ <;> decide

/-- C19 fails on the code: `Reconcile` never reads the `SignerName` field, so
changing it changes nothing.  A reconciler configured for `example.com/other`
ignores a valid request that declares `example.com/other`, and approves the
request that declares `cert-manager.io/webhook-serving`. -/
theorem Reconcile_ignores_SignerName (lib : Decoders) (now : Nat) (r : ApprovalReconciler)
    (req : String) (signerName : String) :
    ApprovalReconciler.Reconcile lib now { r with SignerName := signerName } req =
      ApprovalReconciler.Reconcile lib now r req ∧
    ApprovalReconciler.Reconcile (exampleDecoders (exampleParsed "" ["svc1.ns1.cluster"] []))
        7
        { exampleReconciler
            { exampleCSR [] with
              Spec := { (exampleCSR []).Spec with SignerName := some "example.com/other" } }
            [exampleConfiguration] with
          SignerName := "example.com/other" }
        "csr1" =
      { err := none, panicked := false, authorizerCalls := [], approvalUpdates := [] } ∧
    (ApprovalReconciler.Reconcile (exampleDecoders (exampleParsed "" ["svc1.ns1.cluster"] []))
        7
        { exampleReconciler (exampleCSR []) [exampleConfiguration] with
          SignerName := "example.com/other" }
        "csr1").approvalUpdates =
      [exampleCSR [⟨"Approved", "AutoApproved",
        "Automatically approved by webhook-operator", 7⟩]] := by
  refine ⟨rfl, ?_, ?_⟩ <;> decide

/-- C20: for non-empty `svc` and `ns` without `.` and a `suffix` without `.`,
the key `IsAuthorized` looks up for `svc.ns.suffix` is `ns/svc`, the key the
indexer function emits for a webhook entry served by `svc` in `ns`. -/
theorem index_key_agreement (a : Client) (userInfo : UserInfo) (svc ns suffix : String)
    (hsvc : svc ≠ "") (hns : ns ≠ "")
    (hsvcDot : '.' ∉ svc.data) (hnsDot : '.' ∉ ns.data) (hsuffixDot : '.' ∉ suffix.data) :
    (NamedUserAuthorizer.IsAuthorized a userInfo
        (svc ++ "." ++ ns ++ "." ++ suffix)).queries =
      [(".synthetic.serviceName", ns ++ "/" ++ svc)] ∧
    (∀ (configName hookName : String) (annotations : List (String × String)),
      validatingWebhookServiceNameIndexerFunc
          ⟨configName, annotations, [⟨hookName, ⟨some ⟨ns, svc⟩⟩⟩]⟩ =
        [ns ++ "/" ++ svc]) ∧
    (∀ (c : ValidatingWebhookConfiguration) (wh : ValidatingWebhook), wh ∈ c.Webhooks →
      wh.ClientConfig.Service = some ⟨ns, svc⟩ →
      ns ++ "/" ++ svc ∈ validatingWebhookServiceNameIndexerFunc c) := by
  have hsplit : strings_Split_dot (svc ++ "." ++ ns ++ "." ++ suffix) = [svc, ns, suffix] :=
    (strings_Split_dot_eq_three_iff _ svc ns suffix).2 ⟨rfl, hsvcDot, hnsDot, hsuffixDot⟩
  have hex := (extractServiceNamespaceName_ok_iff (svc ++ "." ++ ns ++ "." ++ suffix) ns svc).2
    ⟨suffix, hsplit, hsvc, hns⟩
  refine ⟨?_, ?_, ?_⟩
  · unfold NamedUserAuthorizer.IsAuthorized
    rw [hex]
    simp only
    cases a.ListMatchingFields ValidatingWebhookServiceNameKey (ns ++ "/" ++ svc) <;> rfl
  · intro configName hookName annotations
    rfl
  · intro c wh hwh hs
    exact (mem_validatingWebhookServiceNameIndexerFunc c _).2 ⟨wh, hwh, ⟨ns, svc⟩, hs, rfl⟩

/-- Witness for C20: `svc1.ns1.cluster` is looked up under the key that the
configuration `config1` is indexed by. -/
theorem index_key_agreement_witness :
    (NamedUserAuthorizer.IsAuthorized failingClient exampleOutsider
        ("svc1" ++ "." ++ "ns1" ++ "." ++ "cluster")).queries =
      [(".synthetic.serviceName", "ns1" ++ "/" ++ "svc1")] ∧
    validatingWebhookServiceNameIndexerFunc exampleConfiguration = ["ns1" ++ "/" ++ "svc1"] :=
  ⟨(index_key_agreement failingClient exampleOutsider "svc1" "ns1" "cluster"
      (by decide) (by decide) (by decide) (by decide) (by decide)).1,
   (index_key_agreement failingClient exampleOutsider "svc1" "ns1" "cluster"
      (by decide) (by decide) (by decide) (by decide) (by decide)).2.1 "config1" "hook1" []⟩

end WebhookOperator
